import Mathlib

/-!
# Stack / thread-context manager and `sbrk`

A shallow embedding of `bfsdk/include/bfthreadcontext.h` and of
`bfruntime/src/syscalls.cpp` (`sbrk`, the forwarding operations and the stubs).

* `uint64_t` values are natural numbers below `2 ^ 64`; every addition and
  subtraction of the source is reduced modulo `2 ^ 64` explicitly.
* `BFSTACK_SIZE` comes from `bftypes.h`, which is not part of the excerpt; it is
  the parameter `S` of every function that uses it, a 64-bit value, so that
  `~(BFSTACK_SIZE - 1)` is a 64-bit mask.
* Pointer arithmetic in `sbrk` is the 64-bit machine arithmetic: sums are taken
  modulo `2 ^ 64` and pointers are compared as unsigned numbers.
* The value of `_thread_context_get_sp()` (the hardware stack pointer) is the
  parameter `hwsp`.
* Memory is a byte map; a 64-bit access is little-endian (x86-64) and the
  structure is packed (`#pragma pack(push, 1)`), so the fields of
  `thread_context_t` sit at offsets 0 (`canary`), 8 (`tlsptr`), 16 (`id`) and
  24 (`reserved`).
-/

namespace Bareflank

/-! ## Machine words -/

/-- The number of `uint64_t` values, `2 ^ 64`. -/
def U64 : Nat := 2 ^ 64

/-- Addition of two `uint64_t`. -/
def add64 (a b : Nat) : Nat := (a + b) % U64

/-- Subtraction of two `uint64_t` (wraps below zero). -/
def sub64 (a b : Nat) : Nat := (a % U64 + (U64 - b % U64)) % U64

/-- Bitwise complement `~x` of a `uint64_t`. -/
def not64 (x : Nat) : Nat := U64 - 1 - x % U64

/-- Bitwise conjunction `a & b` of two `uint64_t`. -/
def and64 (a b : Nat) : Nat := (a % U64) &&& (b % U64)

/-! ## Byte-addressed memory -/

/-- Memory: the byte stored at each address. -/
abbrev Mem := Nat → Nat

/-- Load of a `uint64_t` at address `a`: byte `i` is read from address
`(a + i) mod 2 ^ 64`, least significant byte first. -/
def read64 (m : Mem) (a : Nat) : Nat :=
  m (add64 a 0) % 256
    + m (add64 a 1) % 256 * 256 ^ 1
    + m (add64 a 2) % 256 * 256 ^ 2
    + m (add64 a 3) % 256 * 256 ^ 3
    + m (add64 a 4) % 256 * 256 ^ 4
    + m (add64 a 5) % 256 * 256 ^ 5
    + m (add64 a 6) % 256 * 256 ^ 6
    + m (add64 a 7) % 256 * 256 ^ 7

/-- Store of the `uint64_t` `v` at address `a`: the address `x` receives byte
`x - a` of `v` when it is one of the eight addresses `a, …, a + 7`
(modulo `2 ^ 64`), and keeps its content otherwise. -/
def write64 (m : Mem) (a v : Nat) : Mem := fun x =>
  if x < U64 ∧ sub64 x a < 8 then v / 256 ^ sub64 x a % 256 else m x

/-! ## `bfthreadcontext.h` -/

/-- The macro `BFCANARY`. -/
def BFCANARY : Nat := 0xBF42BF42BF42BF42

/-- The value of `sizeof(struct thread_context_t)`: three 8-byte fields and
`reserved[5]`, packed. -/
def sizeof_thread_context_t : Nat := 8 + 8 + 8 + 5 * 8

/-- Offset of the field `canary` in `thread_context_t`. -/
def offset_canary : Nat := 0

/-- Offset of the field `tlsptr` in `thread_context_t`. -/
def offset_tlsptr : Nat := 8

/-- Offset of the field `id` in `thread_context_t`. -/
def offset_id : Nat := 16

/-- Modelled from the spec: `status_t`, `BFSUCCESS` and `BFFAILURE` are declared
in `bftypes.h`, which is missing; the spec only distinguishes the two outcomes
"success" and "failure". -/
inductive status_t where
  | BFSUCCESS
  | BFFAILURE
  deriving DecidableEq, Repr

/-- The function `stack_size`: `BFSTACK_SIZE * 2`. -/
def stack_size (S : Nat) : Nat := (S * 2) % U64

/-- The function `thread_context_top_of_stack`. -/
def thread_context_top_of_stack (S hwsp sp : Nat) : Nat :=
  if sp = 0 then
    and64 (add64 hwsp S) (not64 (sub64 S 1))
  else
    and64 (add64 sp (stack_size S)) (not64 (sub64 S 1))

/-- The function `thread_context_bottom_of_stack`. -/
def thread_context_bottom_of_stack (S hwsp sp : Nat) : Nat :=
  sub64 (thread_context_top_of_stack S hwsp sp) S

/-- The function `thread_context_ptr`. -/
def thread_context_ptr (S hwsp sp : Nat) : Nat :=
  sub64 (thread_context_top_of_stack S hwsp sp) sizeof_thread_context_t

/-- The function `thread_context_id`: `thread_context_ptr(0)->id`. -/
def thread_context_id (S hwsp : Nat) (m : Mem) : Nat :=
  read64 m (add64 (thread_context_ptr S hwsp 0) offset_id)

/-- The function `thread_context_tlsptr`: `thread_context_ptr(0)->tlsptr`. -/
def thread_context_tlsptr (S hwsp : Nat) (m : Mem) : Nat :=
  read64 m (add64 (thread_context_ptr S hwsp 0) offset_tlsptr)

/-- The function `setup_stack`: the returned value and the memory it leaves. -/
def setup_stack (S hwsp : Nat) (m : Mem) (stack id tlsptr : Nat) : Nat × Mem :=
  let sp := stack
  let tc := thread_context_ptr S hwsp sp
  let m1 := write64 m (add64 tc offset_id) id
  let m2 := write64 m1 (add64 tc offset_tlsptr) tlsptr
  let m3 := write64 m2 (add64 tc offset_canary) BFCANARY
  let m4 := write64 m3 (thread_context_bottom_of_stack S hwsp sp) BFCANARY
  (tc, m4)

/-- The function `validate_canaries`. -/
def validate_canaries (S hwsp : Nat) (m : Mem) (stack : Nat) : status_t :=
  let sp := stack
  let tc := thread_context_ptr S hwsp sp
  if read64 m (add64 tc offset_canary) ≠ BFCANARY then
    status_t.BFFAILURE
  else if read64 m (thread_context_bottom_of_stack S hwsp sp) ≠ BFCANARY then
    status_t.BFFAILURE
  else
    status_t.BFSUCCESS

/-! ## `syscalls.cpp`: the heap cursor -/

/-- Modelled from the spec: the out-of-memory code `ENOMEM` of `<cerrno>`, which
is not part of the excerpt (12 in newlib and on Linux). -/
def ENOMEM : Int := 12

/-- The process-wide state `sbrk` works on: the globals `__g_heap`,
`__g_heap_size` and `__g_heap_cursor` (addresses and sizes are `uint64_t`
values) and `errno`. -/
structure heap_state where
  __g_heap : Nat
  __g_heap_size : Nat
  __g_heap_cursor : Nat
  errno : Int

/-- Pointer plus `ptrdiff_t` on a 64-bit machine: the sum modulo `2 ^ 64`. -/
def ptr_add (p : Nat) (incr : Int) : Nat := (((p : Int) + incr) % (U64 : Int)).toNat

/-- The function `sbrk`: the returned pointer and the state it leaves. -/
def sbrk (s : heap_state) (incr : Int) : Nat × heap_state :=
  let cursor := s.__g_heap_cursor
  if incr ≠ 0 then
    if ptr_add s.__g_heap_cursor incr ≥ add64 s.__g_heap s.__g_heap_size then
      (U64 - 1, { s with errno := ENOMEM })
    else
      (cursor, { s with __g_heap_cursor := ptr_add s.__g_heap_cursor incr })
  else
    (cursor, s)

/-! ## `syscalls.cpp`: forwarding operations and stubs

`bfsyscall` and the request records `bfsyscall_*_args` are declared in
`bfsyscall.h`, which is not part of the excerpt. The records below take their
field order from the aggregate initialisers of `syscalls.cpp` and the names
`error` and `ret` from the accesses `args.error` and `args.ret`; the other fields
are named after the argument stored in them. The call
`bfsyscall(BFSYSCALL_…, &args)` is a parameter: a function from the record it is
given to the record it leaves. Every operation returns its C result together
with the value `errno` has afterwards. -/

/-- Modelled from the spec: the invalid-argument code `EINVAL` of `<cerrno>`,
which is not part of the excerpt (22 in newlib and on Linux). -/
def EINVAL : Int := 22

/-- Request record of `open`. -/
structure bfsyscall_open_args where
  file : Nat
  oflag : Int
  error : Int
  ret : Int

/-- Request record of `close`. -/
structure bfsyscall_close_args where
  fd : Int
  error : Int
  ret : Int

/-- Request record of `write`. -/
structure bfsyscall_write_args where
  fd : Int
  buf : Nat
  nbyte : Nat
  error : Int
  ret : Int

/-- Request record of `read`. -/
structure bfsyscall_read_args where
  fd : Int
  buf : Nat
  nbyte : Nat
  error : Int
  ret : Int

/-- Request record of `fstat`. -/
structure bfsyscall_fstat_args where
  fd : Int
  sbuf : Nat
  error : Int
  ret : Int

/-- Request record of `lseek`. -/
structure bfsyscall_lseek_args where
  fd : Int
  offset : Int
  whence : Int
  error : Int
  ret : Int

/-- Request record of `isatty`. -/
structure bfsyscall_isatty_args where
  fd : Int
  error : Int
  ret : Int

/-- The function `open` (named `open_` here, `open` being reserved). -/
def open_ (bfsyscall : bfsyscall_open_args → bfsyscall_open_args) (errno : Int)
    (file : Nat) (oflag : Int) : Int × Int :=
  let args : bfsyscall_open_args := ⟨file, oflag, EINVAL, -1⟩
  let args := bfsyscall args
  let errno := if args.error ≠ 0 then args.error else errno
  (args.ret, errno)

/-- The function `close`. -/
def close (bfsyscall : bfsyscall_close_args → bfsyscall_close_args) (errno : Int)
    (fd : Int) : Int × Int :=
  let args : bfsyscall_close_args := ⟨fd, EINVAL, -1⟩
  let args := bfsyscall args
  let errno := if args.error ≠ 0 then args.error else errno
  (args.ret, errno)

/-- The function `write`. -/
def write (bfsyscall : bfsyscall_write_args → bfsyscall_write_args) (errno : Int)
    (fd : Int) (buf nbyte : Nat) : Int × Int :=
  let args : bfsyscall_write_args := ⟨fd, buf, nbyte, EINVAL, 0⟩
  let args := bfsyscall args
  let errno := if args.error ≠ 0 then args.error else errno
  (args.ret, errno)

/-- The function `read`. -/
def read (bfsyscall : bfsyscall_read_args → bfsyscall_read_args) (errno : Int)
    (fd : Int) (buf nbyte : Nat) : Int × Int :=
  let args : bfsyscall_read_args := ⟨fd, buf, nbyte, EINVAL, 0⟩
  let args := bfsyscall args
  let errno := if args.error ≠ 0 then args.error else errno
  (args.ret, errno)

/-- The function `fstat`. -/
def fstat (bfsyscall : bfsyscall_fstat_args → bfsyscall_fstat_args) (errno : Int)
    (fd : Int) (sbuf : Nat) : Int × Int :=
  let args : bfsyscall_fstat_args := ⟨fd, sbuf, EINVAL, -1⟩
  let args := bfsyscall args
  let errno := if args.error ≠ 0 then args.error else errno
  (args.ret, errno)

/-- The function `lseek`. -/
def lseek (bfsyscall : bfsyscall_lseek_args → bfsyscall_lseek_args) (errno : Int)
    (fd offset whence : Int) : Int × Int :=
  let args : bfsyscall_lseek_args := ⟨fd, offset, whence, EINVAL, -1⟩
  let args := bfsyscall args
  let errno := if args.error ≠ 0 then args.error else errno
  (args.ret, errno)

/-- The function `isatty`. -/
def isatty (bfsyscall : bfsyscall_isatty_args → bfsyscall_isatty_args) (errno : Int)
    (fd : Int) : Int × Int :=
  let args : bfsyscall_isatty_args := ⟨fd, EINVAL, 0⟩
  let args := bfsyscall args
  let errno := if args.error ≠ 0 then args.error else errno
  (args.ret, errno)

/-- The function `getpid`. -/
def getpid : Int := 0

/-- The function `kill`: the arguments are ignored, `errno = -EINVAL`. -/
def kill (_errno : Int) (_pid _sig : Int) : Int × Int :=
  (-1, -EINVAL)

/-- The function `sysconf`. -/
def sysconf (_errno : Int) (_name : Int) : Int × Int :=
  (-1, -EINVAL)

/-- The function `sched_yield`. -/
def sched_yield (_errno : Int) : Int × Int :=
  (-1, -EINVAL)

/-- The function `nanosleep`. -/
def nanosleep (_errno : Int) (_req _rem : Nat) : Int × Int :=
  (-1, -EINVAL)

/-! ## Word-level lemmas -/

theorem and64_not64_pow (k a : Nat) (hk : k < 64) (ha : a < U64) :
    and64 a (not64 (sub64 (2 ^ k) 1)) = 2 ^ k * (a / 2 ^ k) := by
  have hpk : 2 ^ k < 2 ^ 64 := Nat.pow_lt_pow_right (by norm_num) hk
  have hpos : 0 < 2 ^ k := Nat.two_pow_pos k
  have h1 : sub64 (2 ^ k) 1 = 2 ^ k - 1 := by
    unfold sub64 U64
    omega
  have h2 : not64 (2 ^ k - 1) = 2 ^ 64 - (2 ^ k - 1 + 1) := by
    unfold not64 U64
    omega
  have h3 : 2 ^ 64 - (2 ^ k - 1 + 1) < 2 ^ 64 := by omega
  rw [h1, h2]
  unfold and64 U64
  unfold U64 at ha
  rw [Nat.mod_eq_of_lt ha, Nat.mod_eq_of_lt h3]
  apply Nat.eq_of_testBit_eq
  intro i
  rw [Nat.testBit_and, Nat.testBit_two_pow_sub_succ (by omega), Nat.testBit_two_pow_sub_one,
    Nat.testBit_mul_pow_two, ← Nat.shiftRight_eq_div_pow, Nat.testBit_shiftRight]
  by_cases hik : k ≤ i
  · have e : k + (i - k) = i := by omega
    rw [e]
    by_cases hi : i < 64
    · simp [hik, hi, Nat.not_lt.mpr hik]
    · have hfalse : a.testBit i = false :=
        Nat.testBit_lt_two_pow (lt_of_lt_of_le ha (Nat.pow_le_pow_right (by norm_num) (by omega)))
      simp [hfalse]
  · have hlt : i < k := by omega
    simp [hik, hlt]

theorem sub64_add64_self (a i : Nat) (hi : i < U64) : sub64 (add64 a i) a = i := by
  unfold sub64 add64 U64 at *
  omega

theorem add64_lt (a i : Nat) : add64 a i < U64 := by
  unfold add64 U64
  omega

theorem write64_at (m : Mem) (a v i : Nat) (hi : i < 8) :
    write64 m a v (add64 a i) = v / 256 ^ i % 256 := by
  unfold write64
  rw [sub64_add64_self a i (by unfold U64; omega)]
  simp [add64_lt, hi]

theorem read64_write64_same (m : Mem) (a v : Nat) :
    read64 (write64 m a v) a = v % U64 := by
  unfold read64
  rw [write64_at m a v 0 (by norm_num), write64_at m a v 1 (by norm_num),
    write64_at m a v 2 (by norm_num), write64_at m a v 3 (by norm_num),
    write64_at m a v 4 (by norm_num), write64_at m a v 5 (by norm_num),
    write64_at m a v 6 (by norm_num), write64_at m a v 7 (by norm_num)]
  unfold U64
  norm_num
  omega

theorem write64_far (m : Mem) (a b v j : Nat) (hj : j < 8)
    (h1 : 8 ≤ sub64 b a) (h2 : 8 ≤ sub64 a b) :
    write64 m a v (add64 b j) = m (add64 b j) := by
  unfold write64
  have h : ¬ sub64 (add64 b j) a < 8 := by
    unfold sub64 add64 U64 at *
    omega
  simp [h]

theorem read64_write64_far (m : Mem) (a b v : Nat)
    (h1 : 8 ≤ sub64 b a) (h2 : 8 ≤ sub64 a b) :
    read64 (write64 m a v) b = read64 m b := by
  unfold read64
  rw [write64_far m a b v 0 (by norm_num) h1 h2, write64_far m a b v 1 (by norm_num) h1 h2,
    write64_far m a b v 2 (by norm_num) h1 h2, write64_far m a b v 3 (by norm_num) h1 h2,
    write64_far m a b v 4 (by norm_num) h1 h2, write64_far m a b v 5 (by norm_num) h1 h2,
    write64_far m a b v 6 (by norm_num) h1 h2, write64_far m a b v 7 (by norm_num) h1 h2]

theorem floor_unique (S t x : Nat) (hdvd : S ∣ t) (h1 : t ≤ x) (h2 : x < t + S) :
    S * (x / S) = t := by
  obtain ⟨c, rfl⟩ := hdvd
  have : x / S = c := by
    apply Nat.div_eq_of_lt_le
    · rw [Nat.mul_comm]; exact h1
    · rw [Nat.succ_mul, Nat.mul_comm]; exact h2
  rw [this]

theorem floor_mod (S M x : Nat) (hdvd : S ∣ M) : S * (x % M / S) = S * (x / S) % M := by
  obtain ⟨c, rfl⟩ := hdvd
  rw [Nat.mod_mul_right_div_self, Nat.mul_mod_mul_left]

theorem pow_dvd_U64 (k : Nat) (hk : k < 64) : 2 ^ k ∣ U64 := by
  unfold U64
  exact Nat.pow_dvd_pow 2 (by omega)

theorem pow_lt_U64 (k : Nat) (hk : k < 64) : 2 ^ k < U64 := by
  unfold U64
  exact Nat.pow_lt_pow_right (by norm_num) hk

theorem pow_cases (k : Nat) (hk : k < 64) :
    2 ^ k = 1 ∨ 2 ^ k = 2 ∨ 2 ^ k = 4 ∨ 2 ^ k = 8 ∨ 2 ^ k = 16 ∨ 2 ^ k = 32 ∨ 2 ^ k = 64 ∨
      (128 ≤ 2 ^ k ∧ 2 ^ k ≤ 2 ^ 63) := by
  by_cases h7 : k < 7
  · interval_cases k <;> simp
  · right; right; right; right; right; right; right
    constructor
    · calc 128 = 2 ^ 7 := by norm_num
        _ ≤ 2 ^ k := Nat.pow_le_pow_right (by norm_num) (by omega)
    · exact Nat.pow_le_pow_right (by norm_num) (by omega)

theorem sub64_lt (a b : Nat) : sub64 a b < U64 := by
  unfold sub64 U64
  omega

theorem add64_zero_of_lt (a : Nat) (ha : a < U64) : add64 a 0 = a := by
  unfold add64 U64 at *
  omega

theorem BFCANARY_lt : BFCANARY % U64 = BFCANARY := by decide

/-! ## Closed forms of `thread_context_top_of_stack` -/

theorem top_of_stack_nonzero (k hwsp sp : Nat) (hk : k < 64) (hsp : sp ≠ 0) :
    thread_context_top_of_stack (2 ^ k) hwsp sp = (2 ^ k * (sp / 2 ^ k) + 2 * 2 ^ k) % U64 := by
  have hpos : 0 < 2 ^ k := Nat.two_pow_pos k
  unfold thread_context_top_of_stack
  rw [if_neg hsp, and64_not64_pow k _ hk (add64_lt _ _)]
  unfold add64 stack_size
  rw [floor_mod _ _ _ (pow_dvd_U64 k hk)]
  have e : (sp + 2 ^ k * 2 % U64) % U64 = (sp + 2 * 2 ^ k) % U64 := by
    unfold U64
    omega
  rw [← floor_mod _ _ _ (pow_dvd_U64 k hk), e, floor_mod _ _ _ (pow_dvd_U64 k hk)]
  have e3 : (sp + 2 * 2 ^ k) / 2 ^ k = sp / 2 ^ k + 2 := by
    rw [Nat.add_mul_div_right _ _ hpos]
  rw [e3, Nat.mul_add]
  congr 1
  ring

theorem top_of_stack_zero (k hwsp : Nat) (hk : k < 64) :
    thread_context_top_of_stack (2 ^ k) hwsp 0 = (2 ^ k * (hwsp / 2 ^ k) + 2 ^ k) % U64 := by
  have hpos : 0 < 2 ^ k := Nat.two_pow_pos k
  unfold thread_context_top_of_stack
  rw [if_pos rfl, and64_not64_pow k _ hk (add64_lt _ _)]
  unfold add64
  rw [floor_mod _ _ _ (pow_dvd_U64 k hk)]
  have e3 : (hwsp + 2 ^ k) / 2 ^ k = hwsp / 2 ^ k + 1 := Nat.add_div_right _ hpos
  rw [e3, Nat.mul_add, Nat.mul_one]

theorem floor_bounds (S x : Nat) (hS : 0 < S) : S * (x / S) ≤ x ∧ x < S * (x / S) + S := by
  constructor
  · exact Nat.mul_div_le x S
  · have := Nat.lt_div_mul_add (a := x) hS
    rw [Nat.mul_comm] at this
    exact this

theorem top_of_stack_lt (S hwsp sp : Nat) : thread_context_top_of_stack S hwsp sp < U64 := by
  unfold thread_context_top_of_stack
  have h : ∀ a b, and64 a b < U64 := by
    intro a b
    unfold and64
    exact lt_of_le_of_lt Nat.and_le_left (Nat.mod_lt _ (by unfold U64; norm_num))
  split <;> exact h _ _

/-! ## The stack layout: claims C4, C5, C6 -/

/-- C4, as stated, fails: with `BFSTACK_SIZE = 0x4000` and the block at `0x8000`
(aligned to `0x8000`), the interior addresses `0x8000` and `0xC000` give two
different context pointers (`0xFFC0` and `0x13FC0`); and in the block at
address 0 the interior address 0 is not used at all, the hardware stack pointer
(here `0x20000`) is rounded instead. -/
theorem C4_context_pointer_differs_across_halves :
    (0x8000 % (2 * 0x4000) = 0 ∧ 0x8000 ≤ 0x8000 ∧ 0x8000 < 0x8000 + 2 * 0x4000 ∧
      0x8000 ≤ 0xC000 ∧ 0xC000 < 0x8000 + 2 * 0x4000 ∧
      thread_context_ptr 0x4000 0 0x8000 = 0xFFC0 ∧
      thread_context_ptr 0x4000 0 0xC000 = 0x13FC0 ∧
      thread_context_ptr 0x4000 0 0x8000 ≠ thread_context_ptr 0x4000 0 0xC000) ∧
    (0 % (2 * 0x4000) = 0 ∧ 1 < 0 + 2 * 0x4000 ∧
      thread_context_ptr 0x4000 0x20000 0 ≠ thread_context_ptr 0x4000 0x20000 1) := by
  decide

/-- C4, amended: for a power-of-two `BFSTACK_SIZE = 2 ^ k` and a block base `b`
aligned to `2 * BFSTACK_SIZE`, two non-zero addresses that lie in the same half
of the block (both in `[b, b + S)` or both in `[b + S, b + 2 * S)`) give the
same context pointer, which is `top_of_stack(sp) - 64` modulo `2 ^ 64`. -/
theorem C4_context_pointer_same_half (k hwsp b sp1 sp2 : Nat) (hk : k < 64)
    (hb : 2 * 2 ^ k ∣ b) (h1 : sp1 ≠ 0) (h2 : sp2 ≠ 0)
    (hhalf : (b ≤ sp1 ∧ sp1 < b + 2 ^ k ∧ b ≤ sp2 ∧ sp2 < b + 2 ^ k) ∨
      (b + 2 ^ k ≤ sp1 ∧ sp1 < b + 2 * 2 ^ k ∧ b + 2 ^ k ≤ sp2 ∧ sp2 < b + 2 * 2 ^ k)) :
    thread_context_ptr (2 ^ k) hwsp sp1 = thread_context_ptr (2 ^ k) hwsp sp2 ∧
      thread_context_ptr (2 ^ k) hwsp sp1
        = (thread_context_top_of_stack (2 ^ k) hwsp sp1 + (2 ^ 64 - 64)) % 2 ^ 64 ∧
      thread_context_ptr (2 ^ k) hwsp sp2
        = (thread_context_top_of_stack (2 ^ k) hwsp sp2 + (2 ^ 64 - 64)) % 2 ^ 64 := by
  have hpos : 0 < 2 ^ k := Nat.two_pow_pos k
  have hSb : 2 ^ k ∣ b := Dvd.dvd.trans (Dvd.intro_left 2 rfl) hb
  have hSb2 : 2 ^ k ∣ b + 2 ^ k := Dvd.dvd.add hSb (dvd_refl _)
  have hfl : 2 ^ k * (sp1 / 2 ^ k) = 2 ^ k * (sp2 / 2 ^ k) := by
    rcases hhalf with ⟨a1, a2, a3, a4⟩ | ⟨a1, a2, a3, a4⟩
    · rw [floor_unique (2 ^ k) b sp1 hSb a1 a2, floor_unique (2 ^ k) b sp2 hSb a3 a4]
    · rw [floor_unique (2 ^ k) (b + 2 ^ k) sp1 hSb2 a1 (by omega),
        floor_unique (2 ^ k) (b + 2 ^ k) sp2 hSb2 a3 (by omega)]
  have htop : thread_context_top_of_stack (2 ^ k) hwsp sp1
      = thread_context_top_of_stack (2 ^ k) hwsp sp2 := by
    rw [top_of_stack_nonzero k hwsp sp1 hk h1, top_of_stack_nonzero k hwsp sp2 hk h2, hfl]
  have hform : ∀ sp, thread_context_ptr (2 ^ k) hwsp sp
      = (thread_context_top_of_stack (2 ^ k) hwsp sp + (2 ^ 64 - 64)) % 2 ^ 64 := by
    intro sp
    have := top_of_stack_lt (2 ^ k) hwsp sp
    unfold thread_context_ptr sub64 sizeof_thread_context_t
    unfold U64 at *
    omega
  refine ⟨?_, hform sp1, hform sp2⟩
  unfold thread_context_ptr
  rw [htop]

/-- The amended C4 at `BFSTACK_SIZE = 2 ^ 14`, block `0x8000`: the addresses
`0xC000` and `0xFFFF` of the upper half give the same context pointer. -/
theorem C4_context_pointer_same_half_witness :
    thread_context_ptr (2 ^ 14) 0 0xC000 = thread_context_ptr (2 ^ 14) 0 0xFFFF ∧
      thread_context_ptr (2 ^ 14) 0 0xC000
        = (thread_context_top_of_stack (2 ^ 14) 0 0xC000 + (2 ^ 64 - 64)) % 2 ^ 64 ∧
      thread_context_ptr (2 ^ 14) 0 0xFFFF
        = (thread_context_top_of_stack (2 ^ 14) 0 0xFFFF + (2 ^ 64 - 64)) % 2 ^ 64 :=
  C4_context_pointer_same_half 14 0 0x8000 0xC000 0xFFFF (by decide) (by decide) (by decide)
    (by decide) (by decide)

/-- C5: for a power-of-two `BFSTACK_SIZE = 2 ^ k` and a non-zero block base `b`
that is a multiple of `2 * BFSTACK_SIZE` with `b + 2 * BFSTACK_SIZE < 2 ^ 64`,
`thread_context_top_of_stack(b) = b + 2 * BFSTACK_SIZE`, and `setup_stack`
returns that address minus 64 (as a `uint64_t`, i.e. modulo `2 ^ 64`; it is the
plain difference as soon as `64 ≤ b + 2 * BFSTACK_SIZE`), which is
`thread_context_ptr(b)`, the address of the context block. -/
theorem C5_top_of_stack_aligned (k hwsp b id tlsptr : Nat) (m : Mem) (hk : k < 64)
    (hb0 : b ≠ 0) (hb : 2 * 2 ^ k ∣ b) (hfit : b + 2 * 2 ^ k < 2 ^ 64) :
    thread_context_top_of_stack (2 ^ k) hwsp b = b + 2 * 2 ^ k ∧
      (setup_stack (2 ^ k) hwsp m b id tlsptr).1 = (b + 2 * 2 ^ k + (2 ^ 64 - 64)) % 2 ^ 64 ∧
      (64 ≤ b + 2 * 2 ^ k →
        (setup_stack (2 ^ k) hwsp m b id tlsptr).1 = b + 2 * 2 ^ k - 64) ∧
      (setup_stack (2 ^ k) hwsp m b id tlsptr).1 = thread_context_ptr (2 ^ k) hwsp b := by
  have hSb : 2 ^ k ∣ b := Dvd.dvd.trans (Dvd.intro_left 2 rfl) hb
  have hfl : 2 ^ k * (b / 2 ^ k) = b := Nat.mul_div_cancel' hSb
  have htop : thread_context_top_of_stack (2 ^ k) hwsp b = b + 2 * 2 ^ k := by
    rw [top_of_stack_nonzero k hwsp b hk hb0, hfl]
    unfold U64
    omega
  have hret : (setup_stack (2 ^ k) hwsp m b id tlsptr).1 = thread_context_ptr (2 ^ k) hwsp b :=
    rfl
  refine ⟨htop, ?_, ?_, hret⟩
  · rw [hret]
    unfold thread_context_ptr sub64 sizeof_thread_context_t U64
    rw [htop]
    omega
  · intro h64
    rw [hret]
    unfold thread_context_ptr sub64 sizeof_thread_context_t U64
    rw [htop]
    omega

/-- C5 at the layout `BFSTACK_SIZE = 2 ^ 14`, `b = 0x8000`: the top of the stack
is `0x10000` and `setup_stack` returns `0xFFC0`. -/
theorem C5_top_of_stack_aligned_witness :
    thread_context_top_of_stack (2 ^ 14) 0 0x8000 = 0x8000 + 2 * 2 ^ 14 ∧
      (setup_stack (2 ^ 14) 0 (fun _ => 0) 0x8000 42 7).1
        = (0x8000 + 2 * 2 ^ 14 + (2 ^ 64 - 64)) % 2 ^ 64 ∧
      (64 ≤ 0x8000 + 2 * 2 ^ 14 →
        (setup_stack (2 ^ 14) 0 (fun _ => 0) 0x8000 42 7).1 = 0x8000 + 2 * 2 ^ 14 - 64) ∧
      (setup_stack (2 ^ 14) 0 (fun _ => 0) 0x8000 42 7).1 = thread_context_ptr (2 ^ 14) 0 0x8000 :=
  C5_top_of_stack_aligned 14 0 0x8000 42 7 (fun _ => 0) (by decide) (by decide) (by decide)
    (by decide)

/-- C6, as stated, fails: with `BFSTACK_SIZE = 0x4000` and the hardware stack
pointer at `0x5000`, `thread_context_top_of_stack(0)` is `0x8000` while
`thread_context_top_of_stack(0x5000)` is `0xC000`. -/
theorem C6_zero_is_not_the_hardware_sp_argument :
    (0x5000 : Nat) ≠ 0 ∧
      thread_context_top_of_stack 0x4000 0x5000 0 = 0x8000 ∧
      thread_context_top_of_stack 0x4000 0x5000 0x5000 = 0xC000 ∧
      thread_context_top_of_stack 0x4000 0x5000 0
        ≠ thread_context_top_of_stack 0x4000 0x5000 0x5000 := by
  decide

/-- C6, amended: passing zero uses the hardware stack pointer `h`, but adds one
`BFSTACK_SIZE` before masking where a non-zero argument adds two: for a
power-of-two `BFSTACK_SIZE = 2 ^ k` and every non-zero `h`,
`thread_context_top_of_stack(0)` evaluated at hardware stack pointer `h` equals
`thread_context_top_of_stack(h) - BFSTACK_SIZE` modulo `2 ^ 64`, that is
`thread_context_bottom_of_stack(h)`. -/
theorem C6_zero_uses_hardware_sp_one_size_lower (k h : Nat) (hk : k < 64) (hh : h ≠ 0) :
    thread_context_top_of_stack (2 ^ k) h 0
        = (thread_context_top_of_stack (2 ^ k) h h + (2 ^ 64 - 2 ^ k)) % 2 ^ 64 ∧
      thread_context_top_of_stack (2 ^ k) h 0 = thread_context_bottom_of_stack (2 ^ k) h h := by
  have hlt := pow_lt_U64 k hk
  have hform : thread_context_top_of_stack (2 ^ k) h 0
      = (thread_context_top_of_stack (2 ^ k) h h + (2 ^ 64 - 2 ^ k)) % 2 ^ 64 := by
    rw [top_of_stack_zero k h hk, top_of_stack_nonzero k h h hk hh]
    unfold U64 at *
    omega
  refine ⟨hform, ?_⟩
  rw [hform]
  have := top_of_stack_lt (2 ^ k) h h
  unfold thread_context_bottom_of_stack sub64
  unfold U64 at *
  omega

/-- The amended C6 at `BFSTACK_SIZE = 2 ^ 14`, hardware stack pointer `0x5000`. -/
theorem C6_zero_uses_hardware_sp_one_size_lower_witness :
    thread_context_top_of_stack (2 ^ 14) 0x5000 0
        = (thread_context_top_of_stack (2 ^ 14) 0x5000 0x5000 + (2 ^ 64 - 2 ^ 14)) % 2 ^ 64 ∧
      thread_context_top_of_stack (2 ^ 14) 0x5000 0
        = thread_context_bottom_of_stack (2 ^ 14) 0x5000 0x5000 :=
  C6_zero_uses_hardware_sp_one_size_lower 14 0x5000 (by decide) (by decide)

/-! ## Memory after `setup_stack` -/

theorem top_of_stack_indep (S h1 h2 sp : Nat) (hsp : sp ≠ 0) :
    thread_context_top_of_stack S h1 sp = thread_context_top_of_stack S h2 sp := by
  unfold thread_context_top_of_stack
  rw [if_neg hsp, if_neg hsp]

theorem setup_stack_reads (k hwsp stack id tlsptr : Nat) (m : Mem) (hk : k < 64) :
    read64 (setup_stack (2 ^ k) hwsp m stack id tlsptr).2
        (add64 (thread_context_ptr (2 ^ k) hwsp stack) offset_id) = id % U64 ∧
      read64 (setup_stack (2 ^ k) hwsp m stack id tlsptr).2
        (add64 (thread_context_ptr (2 ^ k) hwsp stack) offset_tlsptr) = tlsptr % U64 ∧
      read64 (setup_stack (2 ^ k) hwsp m stack id tlsptr).2
        (add64 (thread_context_ptr (2 ^ k) hwsp stack) offset_canary) = BFCANARY ∧
      read64 (setup_stack (2 ^ k) hwsp m stack id tlsptr).2
        (thread_context_bottom_of_stack (2 ^ k) hwsp stack) = BFCANARY := by
  have hS := pow_cases k hk
  have hT := top_of_stack_lt (2 ^ k) hwsp stack
  unfold setup_stack thread_context_ptr thread_context_bottom_of_stack
  simp only []
  generalize thread_context_top_of_stack (2 ^ k) hwsp stack = T at *
  generalize 2 ^ k = S at *
  refine ⟨?_, ?_, ?_, ?_⟩
  · rw [read64_write64_far, read64_write64_far, read64_write64_far, read64_write64_same]
    all_goals
      simp only [sub64, add64, sizeof_thread_context_t, offset_id, offset_tlsptr, offset_canary,
        U64] at *
      omega
  · rw [read64_write64_far, read64_write64_far, read64_write64_same]
    all_goals
      simp only [sub64, add64, sizeof_thread_context_t, offset_id, offset_tlsptr, offset_canary,
        U64] at *
      omega
  · by_cases h64 : S = 64
    · have e : add64 (sub64 T sizeof_thread_context_t) offset_canary = sub64 T S := by
        unfold sub64 add64 sizeof_thread_context_t offset_canary U64 at *
        omega
      rw [e, read64_write64_same, BFCANARY_lt]
    · rw [read64_write64_far, read64_write64_same, BFCANARY_lt]
      all_goals
        simp only [sub64, add64, sizeof_thread_context_t, offset_id, offset_tlsptr,
          offset_canary, U64] at *
        omega
  · rw [read64_write64_same, BFCANARY_lt]

theorem validate_canaries_iff (S hwsp b : Nat) (m : Mem) :
    validate_canaries S hwsp m b = status_t.BFSUCCESS ↔
      read64 m (thread_context_ptr S hwsp b) = BFCANARY ∧
        read64 m (thread_context_bottom_of_stack S hwsp b) = BFCANARY := by
  have e : add64 (thread_context_ptr S hwsp b) offset_canary = thread_context_ptr S hwsp b := by
    unfold offset_canary
    exact add64_zero_of_lt _ (sub64_lt _ _)
  unfold validate_canaries
  simp only [e]
  by_cases h1 : read64 m (thread_context_ptr S hwsp b) = BFCANARY
  · by_cases h2 : read64 m (thread_context_bottom_of_stack S hwsp b) = BFCANARY
    · simp [h1, h2]
    · simp [h1, h2]
  · simp [h1]

theorem validate_canaries_failure (S hwsp b : Nat) (m : Mem)
    (h : ¬ (read64 m (thread_context_ptr S hwsp b) = BFCANARY ∧
        read64 m (thread_context_bottom_of_stack S hwsp b) = BFCANARY)) :
    validate_canaries S hwsp m b = status_t.BFFAILURE := by
  have h2 := (validate_canaries_iff S hwsp b m).not.mpr h
  cases hv : validate_canaries S hwsp m b
  · exact absurd hv h2
  · rfl

theorem validate_after_setup (k hwsp b id tlsptr : Nat) (m : Mem) (hk : k < 64) :
    validate_canaries (2 ^ k) hwsp (setup_stack (2 ^ k) hwsp m b id tlsptr).2 b
      = status_t.BFSUCCESS := by
  obtain ⟨_, _, h3, h4⟩ := setup_stack_reads k hwsp b id tlsptr m hk
  have e : add64 (thread_context_ptr (2 ^ k) hwsp b) offset_canary
      = thread_context_ptr (2 ^ k) hwsp b := by
    unfold offset_canary
    exact add64_zero_of_lt _ (sub64_lt _ _)
  rw [e] at h3
  exact (validate_canaries_iff _ _ _ _).mpr ⟨h3, h4⟩

theorem validate_canaries_indep (S h1 h2 b : Nat) (m : Mem) (hb : b ≠ 0) :
    validate_canaries S h1 m b = validate_canaries S h2 m b := by
  unfold validate_canaries thread_context_ptr thread_context_bottom_of_stack
  dsimp only
  rw [top_of_stack_indep S h1 h2 b hb]

/-! ## Thread identity and canaries: claims C1, C2, C3 -/

/-- C1, as stated, fails: with `BFSTACK_SIZE = 0x4000` and the block at `0x8000`
(aligned to `0x8000`), after `setup_stack(0x8000, 42, 7)` a thread whose stack
pointer is `0x8000`, inside the block but in its lower half, reads neither 42
nor 7; and for the block at address 0 `setup_stack` places the context from the
hardware stack pointer of its caller (here `0x20000`), so a thread at `0x4000`
inside `[0, 0x8000)` does not find it either. -/
theorem C1_identity_lost_in_lower_half :
    (0x8000 % (2 * 0x4000) = 0 ∧ 0x8000 ≤ 0x8000 ∧ 0x8000 < 0x8000 + 2 * 0x4000 ∧
      thread_context_id 0x4000 0x8000
        (setup_stack 0x4000 0x20000 (fun _ => 0) 0x8000 42 7).2 ≠ 42 ∧
      thread_context_tlsptr 0x4000 0x8000
        (setup_stack 0x4000 0x20000 (fun _ => 0) 0x8000 42 7).2 ≠ 7) ∧
    (0 % (2 * 0x4000) = 0 ∧ 0 ≤ 0x4000 ∧ 0x4000 < 0 + 2 * 0x4000 ∧
      thread_context_id 0x4000 0x4000
        (setup_stack 0x4000 0x20000 (fun _ => 0) 0 42 7).2 ≠ 42) := by
  decide

/-- C1, amended: for a power-of-two `BFSTACK_SIZE = 2 ^ k`, a non-zero block base
`b` aligned to `2 * BFSTACK_SIZE`, every id and every TLS pointer `P` (both
`uint64_t`), every initial memory and whatever the hardware stack pointer of the
caller of `setup_stack` is: after `setup_stack(b, id, P)`, `thread_context_id()`
returns `id` and `thread_context_tlsptr()` returns `P` for every current hardware
stack pointer `h` in the upper half `[b + BFSTACK_SIZE, b + 2 * BFSTACK_SIZE)` of
the block. -/
theorem C1_identity_in_upper_half (k hloader b id P h : Nat) (m : Mem) (hk : k < 64)
    (hb0 : b ≠ 0) (hb : 2 * 2 ^ k ∣ b) (hid : id < 2 ^ 64) (hP : P < 2 ^ 64)
    (hlo : b + 2 ^ k ≤ h) (hhi : h < b + 2 * 2 ^ k) :
    thread_context_id (2 ^ k) h (setup_stack (2 ^ k) hloader m b id P).2 = id ∧
      thread_context_tlsptr (2 ^ k) h (setup_stack (2 ^ k) hloader m b id P).2 = P := by
  have hSb : 2 ^ k ∣ b := Dvd.dvd.trans (Dvd.intro_left 2 rfl) hb
  have hSb2 : 2 ^ k ∣ b + 2 ^ k := Dvd.dvd.add hSb (dvd_refl _)
  have hfl : 2 ^ k * (b / 2 ^ k) = b := Nat.mul_div_cancel' hSb
  have hflh : 2 ^ k * (h / 2 ^ k) = b + 2 ^ k :=
    floor_unique (2 ^ k) (b + 2 ^ k) h hSb2 hlo (by omega)
  have htop : thread_context_top_of_stack (2 ^ k) h 0
      = thread_context_top_of_stack (2 ^ k) hloader b := by
    rw [top_of_stack_zero k h hk, top_of_stack_nonzero k hloader b hk hb0, hfl, hflh]
    congr 1
    omega
  have hptr : thread_context_ptr (2 ^ k) h 0 = thread_context_ptr (2 ^ k) hloader b := by
    unfold thread_context_ptr
    rw [htop]
  obtain ⟨h1, h2, _, _⟩ := setup_stack_reads k hloader b id P m hk
  unfold thread_context_id thread_context_tlsptr
  rw [hptr, h1, h2]
  unfold U64
  exact ⟨Nat.mod_eq_of_lt hid, Nat.mod_eq_of_lt hP⟩

/-- The amended C1 at `BFSTACK_SIZE = 2 ^ 14`, block `0x8000`, id 42, TLS pointer
7, thread stack pointer `0xFF00`. -/
theorem C1_identity_in_upper_half_witness :
    thread_context_id (2 ^ 14) 0xFF00 (setup_stack (2 ^ 14) 0x20000 (fun _ => 0) 0x8000 42 7).2
        = 42 ∧
      thread_context_tlsptr (2 ^ 14) 0xFF00
        (setup_stack (2 ^ 14) 0x20000 (fun _ => 0) 0x8000 42 7).2 = 7 :=
  C1_identity_in_upper_half 14 0x20000 0x8000 42 7 0xFF00 (fun _ => 0) (by decide) (by decide)
    (by decide) (by decide) (by decide) (by decide) (by decide)

/-- C2: for a power-of-two `BFSTACK_SIZE = 2 ^ k ≥ 8`, every block base `b` with
`b + 2 * BFSTACK_SIZE < 2 ^ 64`, every id, TLS pointer and initial memory,
`validate_canaries(b)` on the memory left by `setup_stack(b, id, tls)` returns
`BFSUCCESS`. The hardware stack pointer only matters for `b = 0`: it is the same
value `hwsp` in both calls, and for `b ≠ 0` the result holds for any value
`hwsp2` of it at the time of validation. -/
theorem C2_validate_after_setup (k hwsp b id tlsptr : Nat) (m : Mem) (hk : k < 64)
    (_h8 : 8 ≤ 2 ^ k) (_hfit : b + 2 * 2 ^ k < 2 ^ 64) :
    validate_canaries (2 ^ k) hwsp (setup_stack (2 ^ k) hwsp m b id tlsptr).2 b
        = status_t.BFSUCCESS ∧
      (b ≠ 0 → ∀ hwsp2,
        validate_canaries (2 ^ k) hwsp2 (setup_stack (2 ^ k) hwsp m b id tlsptr).2 b
          = status_t.BFSUCCESS) := by
  refine ⟨validate_after_setup k hwsp b id tlsptr m hk, ?_⟩
  intro hb hwsp2
  rw [validate_canaries_indep (2 ^ k) hwsp2 hwsp b _ hb]
  exact validate_after_setup k hwsp b id tlsptr m hk

/-- C2 at `BFSTACK_SIZE = 2 ^ 14`, block `0x1050`, id 42, TLS pointer 7. -/
theorem C2_validate_after_setup_witness :
    validate_canaries (2 ^ 14) 0x20000 (setup_stack (2 ^ 14) 0x20000 (fun _ => 0) 0x1050 42 7).2
        0x1050 = status_t.BFSUCCESS ∧
      (0x1050 ≠ 0 → ∀ hwsp2,
        validate_canaries (2 ^ 14) hwsp2
          (setup_stack (2 ^ 14) 0x20000 (fun _ => 0) 0x1050 42 7).2 0x1050
          = status_t.BFSUCCESS) :=
  C2_validate_after_setup 14 0x20000 0x1050 42 7 (fun _ => 0) (by decide) (by decide)
    (by decide)

/-- C3: for every memory `m` and block address `b`, `validate_canaries(b)`
returns `BFSUCCESS` if and only if the 8-byte word at `thread_context_ptr(b)` and
the 8-byte word at `thread_context_bottom_of_stack(b)` both equal `BFCANARY`; and
overwriting either of the two words with a `uint64_t` `v ≠ BFCANARY` after
`setup_stack` makes it return `BFFAILURE`. -/
theorem C3_validate_iff_both_canaries (S hwsp b : Nat) :
    BFCANARY = 0xBF42BF42BF42BF42 ∧
    (∀ m : Mem, validate_canaries S hwsp m b = status_t.BFSUCCESS ↔
      read64 m (thread_context_ptr S hwsp b) = BFCANARY ∧
        read64 m (thread_context_bottom_of_stack S hwsp b) = BFCANARY) ∧
    (∀ (hloader id tlsptr v : Nat) (m : Mem), v < 2 ^ 64 → v ≠ BFCANARY →
      validate_canaries S hwsp
          (write64 (setup_stack S hloader m b id tlsptr).2 (thread_context_ptr S hwsp b) v) b
        = status_t.BFFAILURE ∧
      validate_canaries S hwsp
          (write64 (setup_stack S hloader m b id tlsptr).2
            (thread_context_bottom_of_stack S hwsp b) v) b
        = status_t.BFFAILURE) := by
  refine ⟨rfl, fun m => validate_canaries_iff S hwsp b m, ?_⟩
  intro hloader id tlsptr v m hv hne
  have hmod : v % U64 = v := Nat.mod_eq_of_lt hv
  constructor
  · apply validate_canaries_failure
    rw [read64_write64_same, hmod]
    exact fun h => hne h.1
  · apply validate_canaries_failure
    rw [read64_write64_same, hmod]
    exact fun h => hne h.2

/-- C3 at `BFSTACK_SIZE = 0x4000`, block `0x8000`: zeroing either guard word
after `setup_stack` makes `validate_canaries` fail. -/
theorem C3_validate_iff_both_canaries_witness :
    validate_canaries 0x4000 0 (write64 (setup_stack 0x4000 0 (fun _ => 0) 0x8000 42 7).2
        (thread_context_ptr 0x4000 0 0x8000) 0) 0x8000 = status_t.BFFAILURE ∧
      validate_canaries 0x4000 0 (write64 (setup_stack 0x4000 0 (fun _ => 0) 0x8000 42 7).2
        (thread_context_bottom_of_stack 0x4000 0 0x8000) 0) 0x8000 = status_t.BFFAILURE :=
  (C3_validate_iff_both_canaries 0x4000 0 0x8000).2.2 0 42 7 0 (fun _ => 0) (by decide)
    (by decide)

/-! ## The heap cursor: claims C7, C8, C9, C10 -/

theorem ptr_add_eq (p : Nat) (n : Int) (h0 : 0 ≤ (p : Int) + n) (h1 : (p : Int) + n < 2 ^ 64) :
    (ptr_add p n : Int) = (p : Int) + n := by
  unfold ptr_add U64
  omega

theorem ptr_add_lt (p : Nat) (n : Int) : ptr_add p n < U64 := by
  unfold ptr_add U64
  omega

/-- C7: for every heap state and every non-zero increment `n` such that
`cursor + n < base + size` without address wrap-around (`0 ≤ cursor + n` and
`base + size < 2 ^ 64`), `sbrk(n)` returns the prior cursor, leaves the cursor at
prior cursor `+ n`, and leaves `errno`, the heap base and the heap size
unchanged. -/
theorem C7_sbrk_advances (s : heap_state) (n : Int) (hn : n ≠ 0)
    (hlow : 0 ≤ (s.__g_heap_cursor : Int) + n)
    (hroom : (s.__g_heap_cursor : Int) + n < (s.__g_heap : Int) + s.__g_heap_size)
    (hnowrap : s.__g_heap + s.__g_heap_size < 2 ^ 64) :
    (sbrk s n).1 = s.__g_heap_cursor ∧
      ((sbrk s n).2.__g_heap_cursor : Int) = (s.__g_heap_cursor : Int) + n ∧
      (sbrk s n).2.errno = s.errno ∧
      (sbrk s n).2.__g_heap = s.__g_heap ∧
      (sbrk s n).2.__g_heap_size = s.__g_heap_size := by
  have hp := ptr_add_eq s.__g_heap_cursor n hlow (by omega)
  have hlim : add64 s.__g_heap s.__g_heap_size = s.__g_heap + s.__g_heap_size := by
    unfold add64 U64
    omega
  have hcond : ¬ ptr_add s.__g_heap_cursor n ≥ add64 s.__g_heap s.__g_heap_size := by
    rw [hlim]
    omega
  have e : sbrk s n
      = (s.__g_heap_cursor, { s with __g_heap_cursor := ptr_add s.__g_heap_cursor n }) := by
    unfold sbrk
    rw [if_pos hn, if_neg hcond]
  rw [e]
  exact ⟨rfl, hp, rfl, rfl, rfl⟩

/-- C7 on a heap at `0x1000` of size `0x1000`: two successive `sbrk(100)` calls
from a fresh cursor return `0x1000` and `0x1000 + 100`. -/
theorem C7_sbrk_advances_witness :
    (sbrk ⟨0x1000, 0x1000, 0x1000, 0⟩ 100).1 = 0x1000 ∧
      ((sbrk ⟨0x1000, 0x1000, 0x1000, 0⟩ 100).2.__g_heap_cursor : Int) = (0x1000 : Nat) + 100 ∧
      (sbrk ⟨0x1000, 0x1000, 0x1000, 0⟩ 100).2.errno = 0 ∧
      (sbrk ⟨0x1000, 0x1000, 0x1000, 0⟩ 100).2.__g_heap = 0x1000 ∧
      (sbrk ⟨0x1000, 0x1000, 0x1000, 0⟩ 100).2.__g_heap_size = 0x1000 :=
  C7_sbrk_advances ⟨0x1000, 0x1000, 0x1000, 0⟩ 100 (by decide) (by decide) (by decide)
    (by decide)

/-- C8, as stated, fails in two ways. A zero increment never fails, also when the
cursor is already beyond the heap bound (heap `[0x1000, 0x2000)`, cursor
`0x3000`, `n = 0`: `cursor + n > base + size`, yet the cursor is returned and
`errno` is untouched). And the sum `cursor + n` is computed modulo `2 ^ 64`: on
the heap `[0xFFFFFFFFFFFF0000, 0xFFFFFFFFFFFF8000)` with a fresh cursor,
`n = 0x10001` exceeds the bound, yet the wrapped sum is 1, the check passes, the
old cursor is returned and the cursor becomes 1. -/
theorem C8_sbrk_beyond_bound_not_rejected :
    (((0x3000 : Nat) : Int) + 0 > ((0x1000 : Nat) : Int) + (0x1000 : Nat) ∧
      (sbrk ⟨0x1000, 0x1000, 0x3000, 0⟩ 0).1 = 0x3000 ∧
      (sbrk ⟨0x1000, 0x1000, 0x3000, 0⟩ 0).1 ≠ U64 - 1 ∧
      (sbrk ⟨0x1000, 0x1000, 0x3000, 0⟩ 0).2.errno ≠ ENOMEM) ∧
    (((0xFFFFFFFFFFFF0000 : Nat) : Int) + 0x10001
        > ((0xFFFFFFFFFFFF0000 : Nat) : Int) + (0x8000 : Nat) ∧
      (sbrk ⟨0xFFFFFFFFFFFF0000, 0x8000, 0xFFFFFFFFFFFF0000, 0⟩ 0x10001).1
        = 0xFFFFFFFFFFFF0000 ∧
      (sbrk ⟨0xFFFFFFFFFFFF0000, 0x8000, 0xFFFFFFFFFFFF0000, 0⟩ 0x10001).1 ≠ U64 - 1 ∧
      (sbrk ⟨0xFFFFFFFFFFFF0000, 0x8000, 0xFFFFFFFFFFFF0000, 0⟩ 0x10001).2.errno ≠ ENOMEM ∧
      (sbrk ⟨0xFFFFFFFFFFFF0000, 0x8000, 0xFFFFFFFFFFFF0000, 0⟩ 0x10001).2.__g_heap_cursor
        = 1) := by
  decide

/-- C8, amended: for every heap state and every non-zero increment `n` with
`base + size < cursor + n < 2 ^ 64` (growth beyond the heap bound whose address
does not wrap), `sbrk(n)` returns the all-bits-set pointer `2 ^ 64 - 1`, sets
`errno` to `ENOMEM`, and leaves the cursor (and the heap base and size)
unmoved. -/
theorem C8_sbrk_rejects_growth_beyond_bound (s : heap_state) (n : Int) (hn : n ≠ 0)
    (hbeyond : (s.__g_heap_cursor : Int) + n > (s.__g_heap : Int) + s.__g_heap_size)
    (hnowrap : (s.__g_heap_cursor : Int) + n < 2 ^ 64) :
    (sbrk s n).1 = 2 ^ 64 - 1 ∧
      (sbrk s n).2.errno = ENOMEM ∧
      (sbrk s n).2.__g_heap_cursor = s.__g_heap_cursor ∧
      (sbrk s n).2.__g_heap = s.__g_heap ∧
      (sbrk s n).2.__g_heap_size = s.__g_heap_size := by
  have hp := ptr_add_eq s.__g_heap_cursor n (by omega) hnowrap
  have hlim : add64 s.__g_heap s.__g_heap_size = s.__g_heap + s.__g_heap_size := by
    unfold add64 U64
    omega
  have hcond : ptr_add s.__g_heap_cursor n ≥ add64 s.__g_heap s.__g_heap_size := by
    rw [hlim]
    omega
  have e : sbrk s n = (U64 - 1, { s with errno := ENOMEM }) := by
    unfold sbrk
    rw [if_pos hn, if_pos hcond]
  rw [e]
  exact ⟨rfl, rfl, rfl, rfl, rfl⟩

/-- The amended C8 on a heap at `0x1000` of size `0x1000`: `sbrk(size + 1)` from
a fresh cursor fails. -/
theorem C8_sbrk_rejects_growth_beyond_bound_witness :
    (sbrk ⟨0x1000, 0x1000, 0x1000, 0⟩ 0x1001).1 = 2 ^ 64 - 1 ∧
      (sbrk ⟨0x1000, 0x1000, 0x1000, 0⟩ 0x1001).2.errno = ENOMEM ∧
      (sbrk ⟨0x1000, 0x1000, 0x1000, 0⟩ 0x1001).2.__g_heap_cursor = 0x1000 ∧
      (sbrk ⟨0x1000, 0x1000, 0x1000, 0⟩ 0x1001).2.__g_heap = 0x1000 ∧
      (sbrk ⟨0x1000, 0x1000, 0x1000, 0⟩ 0x1001).2.__g_heap_size = 0x1000 :=
  C8_sbrk_rejects_growth_beyond_bound ⟨0x1000, 0x1000, 0x1000, 0⟩ 0x1001 (by decide)
    (by decide) (by decide)

/-- C9, as stated, fails: the only check is against the upper bound. On the heap
`[0x1000, 0x2000)` with the cursor at the base, `sbrk(-1)` is accepted and leaves
the cursor at `0xFFF`, below the base. (A wrapped sum can do the same for a
positive increment: heap `[0xFFFFFFFFFFFF0000, 0xFFFFFFFFFFFF8000)`, cursor at
the base, `n = 0x10001` leaves the cursor at 1.) -/
theorem C9_sbrk_cursor_below_base :
    ((0x1000 : Nat) ≤ 0x1000 ∧ (0x1000 : Nat) < 0x1000 + 0x1000 ∧
      (sbrk ⟨0x1000, 0x1000, 0x1000, 0⟩ (-1)).2.__g_heap_cursor = 0xFFF ∧
      ¬ (0x1000 ≤ (sbrk ⟨0x1000, 0x1000, 0x1000, 0⟩ (-1)).2.__g_heap_cursor)) ∧
    ((0xFFFFFFFFFFFF0000 : Nat) < 0xFFFFFFFFFFFF0000 + 0x8000 ∧
      ¬ (0xFFFFFFFFFFFF0000 ≤
        (sbrk ⟨0xFFFFFFFFFFFF0000, 0x8000, 0xFFFFFFFFFFFF0000, 0⟩
          0x10001).2.__g_heap_cursor)) := by
  decide

/-- C9, amended: the single check bounds the cursor from above only. For every
heap state with `base ≤ cursor < base + size` and every increment `n`, the cursor
after `sbrk(n)` is still `< base + size`; it is still `≥ base` when
`base ≤ cursor + n < 2 ^ 64`, in particular for every `n ≥ 0` whose sum does not
wrap. -/
theorem C9_sbrk_keeps_upper_bound (s : heap_state) (n : Int)
    (hlo : s.__g_heap ≤ s.__g_heap_cursor)
    (hhi : s.__g_heap_cursor < s.__g_heap + s.__g_heap_size) :
    (sbrk s n).2.__g_heap_cursor < (sbrk s n).2.__g_heap + (sbrk s n).2.__g_heap_size ∧
      ((s.__g_heap : Int) ≤ (s.__g_heap_cursor : Int) + n →
        (s.__g_heap_cursor : Int) + n < 2 ^ 64 →
        (sbrk s n).2.__g_heap ≤ (sbrk s n).2.__g_heap_cursor) ∧
      (0 ≤ n → (s.__g_heap_cursor : Int) + n < 2 ^ 64 →
        (sbrk s n).2.__g_heap ≤ (sbrk s n).2.__g_heap_cursor) := by
  have hle : add64 s.__g_heap s.__g_heap_size ≤ s.__g_heap + s.__g_heap_size := by
    unfold add64
    exact Nat.mod_le _ _
  have key : (s.__g_heap : Int) ≤ (s.__g_heap_cursor : Int) + n →
      (s.__g_heap_cursor : Int) + n < 2 ^ 64 →
      (sbrk s n).2.__g_heap ≤ (sbrk s n).2.__g_heap_cursor := by
    intro h1 h2
    have hp := ptr_add_eq s.__g_heap_cursor n (by omega) h2
    unfold sbrk
    by_cases hn : n = 0
    · simp only [hn, ne_eq, not_true_eq_false, if_false]
      exact hlo
    · by_cases hc : ptr_add s.__g_heap_cursor n ≥ add64 s.__g_heap s.__g_heap_size
      · simp only [hn, hc, ne_eq, not_false_eq_true, if_true]
        exact hlo
      · simp only [hn, hc, ne_eq, not_false_eq_true, if_true, if_false]
        omega
  refine ⟨?_, key, fun h0 h2 => key (by omega) h2⟩
  unfold sbrk
  by_cases hn : n = 0
  · simp only [hn, ne_eq, not_true_eq_false, if_false]
    exact hhi
  · by_cases hc : ptr_add s.__g_heap_cursor n ≥ add64 s.__g_heap s.__g_heap_size
    · simp only [hn, hc, ne_eq, not_false_eq_true, if_true]
      exact hhi
    · simp only [hn, hc, ne_eq, not_false_eq_true, if_true, if_false]
      omega

/-- The amended C9 on the heap `[0x1000, 0x2000)` with the cursor at `0x1800` and
`n = -0x100`. -/
theorem C9_sbrk_keeps_upper_bound_witness :
    (sbrk ⟨0x1000, 0x1000, 0x1800, 0⟩ (-0x100)).2.__g_heap_cursor
        < (sbrk ⟨0x1000, 0x1000, 0x1800, 0⟩ (-0x100)).2.__g_heap
          + (sbrk ⟨0x1000, 0x1000, 0x1800, 0⟩ (-0x100)).2.__g_heap_size ∧
      (sbrk ⟨0x1000, 0x1000, 0x1800, 0⟩ (-0x100)).2.__g_heap
        ≤ (sbrk ⟨0x1000, 0x1000, 0x1800, 0⟩ (-0x100)).2.__g_heap_cursor :=
  ⟨(C9_sbrk_keeps_upper_bound ⟨0x1000, 0x1000, 0x1800, 0⟩ (-0x100) (by decide) (by decide)).1,
    (C9_sbrk_keeps_upper_bound ⟨0x1000, 0x1000, 0x1800, 0⟩ (-0x100) (by decide)
      (by decide)).2.1 (by decide) (by decide)⟩

/-- C10: for every heap state whatsoever, `sbrk(0)` returns the current cursor
and leaves the whole state (cursor, `errno`, heap base and size) unchanged; it
never takes the failing path (it does not set `errno` to `ENOMEM`, and the value
it returns is the cursor, not the failure pointer). -/
theorem C10_sbrk_zero_is_a_query (s : heap_state) :
    (sbrk s 0).1 = s.__g_heap_cursor ∧
      (sbrk s 0).2 = s ∧
      (sbrk s 0).2.__g_heap_cursor = s.__g_heap_cursor ∧
      (sbrk s 0).2.errno = s.errno := by
  unfold sbrk
  simp

/-! ## Forwarding operations and stubs: claims C11, C12, C13 -/

/-- C11: with the external dispatch an arbitrary function `d` on the request
record, for every path, flags and prior `errno`: if `d` leaves the error field
at `e ≠ 0` and the return slot at its pre-seeded `-1`, `open` returns `-1` and
`errno` is `e`; if `d` leaves the error field at 0 and the return slot at a
descriptor `r ≥ 0`, `open` returns `r` and `errno` keeps its prior value. -/
theorem C11_open_error_and_success (d : bfsyscall_open_args → bfsyscall_open_args)
    (file : Nat) (oflag errno e r : Int)
    (herr : (d ⟨file, oflag, EINVAL, -1⟩).error = e)
    (hret : (d ⟨file, oflag, EINVAL, -1⟩).ret = r) :
    (e ≠ 0 → r = -1 → open_ d errno file oflag = (-1, e)) ∧
      (e = 0 → 0 ≤ r → open_ d errno file oflag = (r, errno)) := by
  constructor
  · intro he hr
    unfold open_
    simp only [herr, hret, hr, ne_eq, he, not_false_eq_true, if_true]
  · intro he _
    unfold open_
    simp only [herr, hret, he, ne_eq, not_true_eq_false, if_false]

/-- C11 on two dispatches: one that reports error 2 and leaves the return slot,
one that reports success with descriptor 3; prior `errno` 5. -/
theorem C11_open_error_and_success_witness :
    open_ (fun a => { a with error := 2 }) 5 0x1000 0 = (-1, 2) ∧
      open_ (fun a => { a with error := 0, ret := 3 }) 5 0x1000 0 = (3, 5) :=
  ⟨(C11_open_error_and_success (fun a => { a with error := 2 }) 0x1000 0 5 2 (-1) rfl rfl).1
      (by decide) rfl,
    (C11_open_error_and_success (fun a => { a with error := 0, ret := 3 }) 0x1000 0 5 0 3
      rfl rfl).2 rfl (by decide)⟩

/-- C12: for each of the seven forwarding operations, if the dispatch leaves the
two output fields of the request record as they were seeded, the operation sets
`errno` to `EINVAL` and returns the seeded failure value: `-1` for `open`,
`close`, `fstat` and `lseek`, 0 for `write`, `read` and `isatty`. -/
theorem C12_untouched_request_gives_einval
    (d_open : bfsyscall_open_args → bfsyscall_open_args)
    (d_close : bfsyscall_close_args → bfsyscall_close_args)
    (d_write : bfsyscall_write_args → bfsyscall_write_args)
    (d_read : bfsyscall_read_args → bfsyscall_read_args)
    (d_fstat : bfsyscall_fstat_args → bfsyscall_fstat_args)
    (d_lseek : bfsyscall_lseek_args → bfsyscall_lseek_args)
    (d_isatty : bfsyscall_isatty_args → bfsyscall_isatty_args)
    (errno fd oflag offset whence : Int) (file buf nbyte sbuf : Nat)
    (h_open : (d_open ⟨file, oflag, EINVAL, -1⟩).error = EINVAL ∧
      (d_open ⟨file, oflag, EINVAL, -1⟩).ret = -1)
    (h_close : (d_close ⟨fd, EINVAL, -1⟩).error = EINVAL ∧ (d_close ⟨fd, EINVAL, -1⟩).ret = -1)
    (h_write : (d_write ⟨fd, buf, nbyte, EINVAL, 0⟩).error = EINVAL ∧
      (d_write ⟨fd, buf, nbyte, EINVAL, 0⟩).ret = 0)
    (h_read : (d_read ⟨fd, buf, nbyte, EINVAL, 0⟩).error = EINVAL ∧
      (d_read ⟨fd, buf, nbyte, EINVAL, 0⟩).ret = 0)
    (h_fstat : (d_fstat ⟨fd, sbuf, EINVAL, -1⟩).error = EINVAL ∧
      (d_fstat ⟨fd, sbuf, EINVAL, -1⟩).ret = -1)
    (h_lseek : (d_lseek ⟨fd, offset, whence, EINVAL, -1⟩).error = EINVAL ∧
      (d_lseek ⟨fd, offset, whence, EINVAL, -1⟩).ret = -1)
    (h_isatty : (d_isatty ⟨fd, EINVAL, 0⟩).error = EINVAL ∧
      (d_isatty ⟨fd, EINVAL, 0⟩).ret = 0) :
    open_ d_open errno file oflag = (-1, EINVAL) ∧
      close d_close errno fd = (-1, EINVAL) ∧
      write d_write errno fd buf nbyte = (0, EINVAL) ∧
      read d_read errno fd buf nbyte = (0, EINVAL) ∧
      fstat d_fstat errno fd sbuf = (-1, EINVAL) ∧
      lseek d_lseek errno fd offset whence = (-1, EINVAL) ∧
      isatty d_isatty errno fd = (0, EINVAL) := by
  have hne : EINVAL ≠ 0 := by decide
  refine ⟨?_, ?_, ?_, ?_, ?_, ?_, ?_⟩
  · unfold open_
    simp only [h_open.1, h_open.2, ne_eq, hne, not_false_eq_true, if_true]
  · unfold close
    simp only [h_close.1, h_close.2, ne_eq, hne, not_false_eq_true, if_true]
  · unfold write
    simp only [h_write.1, h_write.2, ne_eq, hne, not_false_eq_true, if_true]
  · unfold read
    simp only [h_read.1, h_read.2, ne_eq, hne, not_false_eq_true, if_true]
  · unfold fstat
    simp only [h_fstat.1, h_fstat.2, ne_eq, hne, not_false_eq_true, if_true]
  · unfold lseek
    simp only [h_lseek.1, h_lseek.2, ne_eq, hne, not_false_eq_true, if_true]
  · unfold isatty
    simp only [h_isatty.1, h_isatty.2, ne_eq, hne, not_false_eq_true, if_true]

/-- C12 with the dispatch that does nothing, prior `errno` 0, descriptor 3. -/
theorem C12_untouched_request_gives_einval_witness :
    open_ id 0 0x1000 0 = (-1, EINVAL) ∧
      close id 0 3 = (-1, EINVAL) ∧
      write id 0 3 0x2000 16 = (0, EINVAL) ∧
      read id 0 3 0x2000 16 = (0, EINVAL) ∧
      fstat id 0 3 0x3000 = (-1, EINVAL) ∧
      lseek id 0 3 8 0 = (-1, EINVAL) ∧
      isatty id 0 3 = (0, EINVAL) :=
  C12_untouched_request_gives_einval id id id id id id id 0 3 0 8 0 0x1000 0x2000 16 0x3000
    ⟨rfl, rfl⟩ ⟨rfl, rfl⟩ ⟨rfl, rfl⟩ ⟨rfl, rfl⟩ ⟨rfl, rfl⟩ ⟨rfl, rfl⟩ ⟨rfl, rfl⟩

/-- C13, evaluated on the code: for every input and every prior `errno`, `kill`,
`sched_yield`, `nanosleep` and `sysconf` return `-1`, but the value they leave in
`errno` is `-EINVAL` (that is `-22`), which is not the invalid-argument code
`EINVAL` the forwarding operations store. -/
theorem C13_stubs_store_negated_einval (errno pid sig name : Int) (req rem : Nat) :
    ((kill errno pid sig).1 = -1 ∧ (sched_yield errno).1 = -1 ∧
      (nanosleep errno req rem).1 = -1 ∧ (sysconf errno name).1 = -1) ∧
    ((kill errno pid sig).2 = -EINVAL ∧ (sched_yield errno).2 = -EINVAL ∧
      (nanosleep errno req rem).2 = -EINVAL ∧ (sysconf errno name).2 = -EINVAL) ∧
    ((kill errno pid sig).2 ≠ EINVAL ∧ (sched_yield errno).2 ≠ EINVAL ∧
      (nanosleep errno req rem).2 ≠ EINVAL ∧ (sysconf errno name).2 ≠ EINVAL) ∧
    (open_ id errno 0 0).2 = EINVAL := by
  refine ⟨⟨rfl, rfl, rfl, rfl⟩, ⟨rfl, rfl, rfl, rfl⟩, ⟨?_, ?_, ?_, ?_⟩, ?_⟩
  · unfold kill; decide
  · unfold sched_yield; decide
  · unfold nanosleep; decide
  · unfold sysconf; decide
  · unfold open_
    simp [EINVAL]

/-! ## Exact fit in `sbrk`: claim C20 -/

/-- C20, as stated, fails in its last part: the last byte of the heap region can
be handed out when the pointer sum wraps. On the heap
`[0xFFFFFFFFFFFF0000, 0xFFFFFFFFFFFF8000)` with a fresh cursor, `sbrk(0x10001)`
succeeds (the wrapped sum is 1, below the bound): it returns the prior cursor
`0xFFFFFFFFFFFF0000`, does not touch `errno`, and the `0x10001` bytes that start
at the returned pointer contain the last heap byte `0xFFFFFFFFFFFF7FFF` (offset
`0x7FFF`). -/
theorem C20_sbrk_wrapped_sum_hands_out_last_byte :
    ((0x10001 : Int) ≠ 0 ∧
      (sbrk ⟨0xFFFFFFFFFFFF0000, 0x8000, 0xFFFFFFFFFFFF0000, 0⟩ 0x10001).1
        = 0xFFFFFFFFFFFF0000 ∧
      (sbrk ⟨0xFFFFFFFFFFFF0000, 0x8000, 0xFFFFFFFFFFFF0000, 0⟩ 0x10001).2.__g_heap_cursor
        = 1 ∧
      (sbrk ⟨0xFFFFFFFFFFFF0000, 0x8000, 0xFFFFFFFFFFFF0000, 0⟩ 0x10001).2.errno = 0 ∧
      (sbrk ⟨0xFFFFFFFFFFFF0000, 0x8000, 0xFFFFFFFFFFFF0000, 0⟩ 0x10001).1 ≠ 2 ^ 64 - 1 ∧
      (sbrk ⟨0xFFFFFFFFFFFF0000, 0x8000, 0xFFFFFFFFFFFF0000, 0⟩ 0x10001).2.errno ≠ ENOMEM) ∧
    ((0xFFFFFFFFFFFF0000 : Nat) + 0x8000 - 1 = 0xFFFFFFFFFFFF7FFF ∧
      ((0x7FFF : Nat) : Int) < 0x10001 ∧
      add64 (sbrk ⟨0xFFFFFFFFFFFF0000, 0x8000, 0xFFFFFFFFFFFF0000, 0⟩ 0x10001).1 0x7FFF
        = 0xFFFFFFFFFFFF7FFF) := by
  decide

/-- C20, amended: for every heap state and non-zero increment `n` with
`cursor + n = base + size`, `sbrk(n)` returns the all-bits-set pointer, sets
`errno` to `ENOMEM` and leaves the cursor unchanged; every non-zero `sbrk` either
fails in that way or succeeds (returns the prior cursor and moves the cursor)
with the new cursor strictly below `base + size`; and when the pointer sum does
not wrap (`0 ≤ cursor + n < 2 ^ 64`) and the call moved the cursor, no address
`a` of the handed-out range `[cursor, cursor + n)` is the last byte
`base + size - 1` of the heap region. -/
theorem C20_sbrk_rejects_exact_fit (s : heap_state) (n : Int) (hn : n ≠ 0) :
    ((s.__g_heap_cursor : Int) + n = (s.__g_heap : Int) + s.__g_heap_size →
      (sbrk s n).1 = 2 ^ 64 - 1 ∧ (sbrk s n).2.errno = ENOMEM ∧
        (sbrk s n).2.__g_heap_cursor = s.__g_heap_cursor) ∧
    (sbrk s n = (2 ^ 64 - 1, { s with errno := ENOMEM }) ∨
      (sbrk s n = (s.__g_heap_cursor,
          { s with __g_heap_cursor := ptr_add s.__g_heap_cursor n }) ∧
        (sbrk s n).2.__g_heap_cursor < s.__g_heap + s.__g_heap_size)) ∧
    (0 ≤ (s.__g_heap_cursor : Int) + n → (s.__g_heap_cursor : Int) + n < 2 ^ 64 →
      (sbrk s n).2.__g_heap_cursor ≠ s.__g_heap_cursor →
      (sbrk s n).1 = s.__g_heap_cursor ∧
        ((sbrk s n).2.__g_heap_cursor : Int) = (s.__g_heap_cursor : Int) + n ∧
        ∀ a : Nat, s.__g_heap_cursor ≤ a → (a : Int) < (s.__g_heap_cursor : Int) + n →
          (a : Int) ≠ (s.__g_heap : Int) + s.__g_heap_size - 1) := by
  have hle : add64 s.__g_heap s.__g_heap_size ≤ s.__g_heap + s.__g_heap_size := by
    unfold add64
    exact Nat.mod_le _ _
  refine ⟨?_, ?_, ?_⟩
  · intro hfit
    have hcond : ptr_add s.__g_heap_cursor n ≥ add64 s.__g_heap s.__g_heap_size := by
      unfold ptr_add add64 U64
      rw [hfit]
      omega
    have e : sbrk s n = (U64 - 1, { s with errno := ENOMEM }) := by
      unfold sbrk
      rw [if_pos hn, if_pos hcond]
    rw [e]
    exact ⟨rfl, rfl, rfl⟩
  · by_cases hcond : ptr_add s.__g_heap_cursor n ≥ add64 s.__g_heap s.__g_heap_size
    · left
      unfold sbrk
      rw [if_pos hn, if_pos hcond]
      rfl
    · right
      have e : sbrk s n = (s.__g_heap_cursor,
          { s with __g_heap_cursor := ptr_add s.__g_heap_cursor n }) := by
        unfold sbrk
        rw [if_pos hn, if_neg hcond]
      rw [e]
      refine ⟨rfl, ?_⟩
      show ptr_add s.__g_heap_cursor n < s.__g_heap + s.__g_heap_size
      omega
  · intro h0 h1 hmoved
    have hp := ptr_add_eq s.__g_heap_cursor n h0 h1
    by_cases hcond : ptr_add s.__g_heap_cursor n ≥ add64 s.__g_heap s.__g_heap_size
    · exfalso
      apply hmoved
      unfold sbrk
      rw [if_pos hn, if_pos hcond]
    · have e : sbrk s n = (s.__g_heap_cursor,
          { s with __g_heap_cursor := ptr_add s.__g_heap_cursor n }) := by
        unfold sbrk
        rw [if_pos hn, if_neg hcond]
      rw [e]
      refine ⟨rfl, hp, ?_⟩
      intro a _ ha
      omega

/-- The amended C20 on the heap `[0x1000, 0x2000)` with a fresh cursor: the exact
fit `n = 0x1000` is rejected, and `sbrk(0xFFF)` succeeds and hands out
`[0x1000, 0x1FFF)`, which does not contain `0x1FFF`. -/
theorem C20_sbrk_rejects_exact_fit_witness :
    ((sbrk ⟨0x1000, 0x1000, 0x1000, 0⟩ 0x1000).1 = 2 ^ 64 - 1 ∧
      (sbrk ⟨0x1000, 0x1000, 0x1000, 0⟩ 0x1000).2.errno = ENOMEM ∧
      (sbrk ⟨0x1000, 0x1000, 0x1000, 0⟩ 0x1000).2.__g_heap_cursor = 0x1000) ∧
    ((sbrk ⟨0x1000, 0x1000, 0x1000, 0⟩ 0xFFF).1 = 0x1000 ∧
      ((sbrk ⟨0x1000, 0x1000, 0x1000, 0⟩ 0xFFF).2.__g_heap_cursor : Int)
        = ((0x1000 : Nat) : Int) + 0xFFF ∧
      ∀ a : Nat, 0x1000 ≤ a → (a : Int) < ((0x1000 : Nat) : Int) + 0xFFF →
        (a : Int) ≠ ((0x1000 : Nat) : Int) + (0x1000 : Nat) - 1) :=
  ⟨(C20_sbrk_rejects_exact_fit ⟨0x1000, 0x1000, 0x1000, 0⟩ 0x1000 (by decide)).1 (by decide),
    (C20_sbrk_rejects_exact_fit ⟨0x1000, 0x1000, 0x1000, 0⟩ 0xFFF (by decide)).2.2
      (by decide) (by decide) (by decide)⟩

/-! ## More on the layout: shared lemmas -/

theorem top_of_stack_dvd (k hwsp sp : Nat) (hk : k < 64) :
    2 ^ k ∣ thread_context_top_of_stack (2 ^ k) hwsp sp := by
  unfold thread_context_top_of_stack
  split
  · rw [and64_not64_pow k _ hk (add64_lt _ _)]
    exact Dvd.intro _ rfl
  · rw [and64_not64_pow k _ hk (add64_lt _ _)]
    exact Dvd.intro _ rfl

theorem top_of_stack_fits (k hwsp b : Nat) (hk : k < 64) (hb0 : b ≠ 0)
    (hfit : b + 2 * 2 ^ k < 2 ^ 64) :
    thread_context_top_of_stack (2 ^ k) hwsp b = 2 ^ k * (b / 2 ^ k) + 2 * 2 ^ k := by
  have hf := floor_bounds (2 ^ k) b (Nat.two_pow_pos k)
  rw [top_of_stack_nonzero k hwsp b hk hb0]
  unfold U64
  omega

theorem pow_ge_64_dvd (k : Nat) (h64 : 64 ≤ 2 ^ k) : 64 ∣ 2 ^ k := by
  have hk6 : 6 ≤ k := by
    by_contra hlt
    have hk : k < 6 := by omega
    interval_cases k <;> omega
  exact Nat.pow_dvd_pow 2 hk6

theorem identity_of_same_top (k hloader b id P h : Nat) (m : Mem) (hk : k < 64)
    (htop : thread_context_top_of_stack (2 ^ k) h 0
      = thread_context_top_of_stack (2 ^ k) hloader b) :
    thread_context_ptr (2 ^ k) h 0 = thread_context_ptr (2 ^ k) hloader b ∧
      thread_context_id (2 ^ k) h (setup_stack (2 ^ k) hloader m b id P).2 = id % U64 ∧
      thread_context_tlsptr (2 ^ k) h (setup_stack (2 ^ k) hloader m b id P).2 = P % U64 := by
  have hptr : thread_context_ptr (2 ^ k) h 0 = thread_context_ptr (2 ^ k) hloader b := by
    unfold thread_context_ptr
    rw [htop]
  obtain ⟨h1, h2, _, _⟩ := setup_stack_reads k hloader b id P m hk
  unfold thread_context_id thread_context_tlsptr
  rw [hptr, h1, h2]
  exact ⟨rfl, rfl, rfl⟩

theorem write64_frame (m : Mem) (a v x : Nat) (h : ∀ i, i < 8 → x ≠ add64 a i) :
    write64 m a v x = m x := by
  unfold write64
  by_cases hc : x < U64 ∧ sub64 x a < 8
  · exfalso
    apply h (sub64 x a) hc.2
    have h1 := hc.1
    have h2 := hc.2
    unfold add64 sub64 U64 at *
    omega
  · rw [if_neg hc]

/-! ## Bottom of the stack and alignment: claims C14, C15, C17, C18 -/

/-- C14, as stated, fails: with `BFSTACK_SIZE = 0x4000`, the block at `0x8000`
(aligned to `0x8000`) and `sp = 0x8000` inside it, `top_of_stack(sp)` is
`0x10000`, and `bottom_of_stack` applied to that value gives `0x14000`, not
`0x10000 - 0x4000 = 0xC000`. -/
theorem C14_bottom_of_top_is_above_top :
    0x8000 % (2 * 0x4000) = 0 ∧ 0x8000 ≤ 0x8000 ∧ 0x8000 < 0x8000 + 2 * 0x4000 ∧
      thread_context_top_of_stack 0x4000 0 0x8000 = 0x10000 ∧
      thread_context_bottom_of_stack 0x4000 0 (thread_context_top_of_stack 0x4000 0 0x8000)
        = 0x14000 ∧
      thread_context_bottom_of_stack 0x4000 0 (thread_context_top_of_stack 0x4000 0 0x8000)
        ≠ thread_context_top_of_stack 0x4000 0 0x8000 - 0x4000 := by
  decide

/-- C14, amended: for a power-of-two `BFSTACK_SIZE = 2 ^ k`, every block base `b`
aligned to `2 * BFSTACK_SIZE` and every `sp` inside that block (the alignment
and the position of `sp` are not used: it holds for every `sp`),
`bottom_of_stack(sp) = top_of_stack(sp) - BFSTACK_SIZE` modulo `2 ^ 64`; the
composition `bottom_of_stack(top_of_stack(sp))` is
`top_of_stack(sp) + BFSTACK_SIZE` modulo `2 ^ 64` whenever `top_of_stack(sp)` is
not zero, a non-zero argument being raised by `2 * BFSTACK_SIZE`. -/
theorem C14_bottom_is_top_minus_size (k hwsp b sp : Nat) (hk : k < 64)
    (_hb : 2 * 2 ^ k ∣ b) (_hlo : b ≤ sp) (_hhi : sp < b + 2 * 2 ^ k) :
    thread_context_bottom_of_stack (2 ^ k) hwsp sp
        = (thread_context_top_of_stack (2 ^ k) hwsp sp + (2 ^ 64 - 2 ^ k)) % 2 ^ 64 ∧
      (thread_context_top_of_stack (2 ^ k) hwsp sp ≠ 0 →
        thread_context_bottom_of_stack (2 ^ k) hwsp
            (thread_context_top_of_stack (2 ^ k) hwsp sp)
          = (thread_context_top_of_stack (2 ^ k) hwsp sp + 2 ^ k) % 2 ^ 64) := by
  have hlt := pow_lt_U64 k hk
  have hT := top_of_stack_lt (2 ^ k) hwsp sp
  have hdvd := top_of_stack_dvd k hwsp sp hk
  have hfl : 2 ^ k * (thread_context_top_of_stack (2 ^ k) hwsp sp / 2 ^ k)
      = thread_context_top_of_stack (2 ^ k) hwsp sp := Nat.mul_div_cancel' hdvd
  constructor
  · unfold thread_context_bottom_of_stack sub64
    unfold U64 at *
    omega
  · intro htop
    unfold thread_context_bottom_of_stack
    rw [top_of_stack_nonzero k hwsp _ hk htop, hfl]
    generalize thread_context_top_of_stack (2 ^ k) hwsp sp = T at *
    unfold sub64
    unfold U64 at *
    omega

/-- The amended C14 at `BFSTACK_SIZE = 2 ^ 14`: in the block at `0x8000` with
`sp = 0x8000` (top `0x10000`, bottom `0xC000`, bottom of the top `0x14000`), and
in the last block of the address space with `sp = 2 ^ 64 - 2 ^ 15`, whose top
wraps to 0 and whose bottom is `2 ^ 64 - 2 ^ 14`. -/
theorem C14_bottom_is_top_minus_size_witness :
    (thread_context_bottom_of_stack (2 ^ 14) 0 0x8000
        = (thread_context_top_of_stack (2 ^ 14) 0 0x8000 + (2 ^ 64 - 2 ^ 14)) % 2 ^ 64 ∧
      thread_context_bottom_of_stack (2 ^ 14) 0 (thread_context_top_of_stack (2 ^ 14) 0 0x8000)
        = (thread_context_top_of_stack (2 ^ 14) 0 0x8000 + 2 ^ 14) % 2 ^ 64) ∧
    (thread_context_top_of_stack (2 ^ 14) 0 (2 ^ 64 - 2 ^ 15) = 0 ∧
      thread_context_bottom_of_stack (2 ^ 14) 0 (2 ^ 64 - 2 ^ 15)
        = (thread_context_top_of_stack (2 ^ 14) 0 (2 ^ 64 - 2 ^ 15) + (2 ^ 64 - 2 ^ 14))
          % 2 ^ 64) :=
  ⟨⟨(C14_bottom_is_top_minus_size 14 0 0x8000 0x8000 (by decide) (by decide) (by decide)
        (by decide)).1,
      (C14_bottom_is_top_minus_size 14 0 0x8000 0x8000 (by decide) (by decide) (by decide)
        (by decide)).2 (by decide)⟩,
    by decide,
    (C14_bottom_is_top_minus_size 14 0 (2 ^ 64 - 2 ^ 15) (2 ^ 64 - 2 ^ 15) (by decide)
      (by decide) (by decide) (by decide)).1⟩

/-- C15: for a power-of-two `BFSTACK_SIZE = 2 ^ k ≥ 64`, every stack address
(aligned or not, zero or not), every hardware stack pointer, id, TLS pointer and
memory, the value `setup_stack` returns is a multiple of 64. -/
theorem C15_setup_stack_returns_aligned (k hwsp stack id tlsptr : Nat) (m : Mem)
    (hk : k < 64) (h64 : 64 ≤ 2 ^ k) :
    (setup_stack (2 ^ k) hwsp m stack id tlsptr).1 % 64 = 0 := by
  have hT := top_of_stack_lt (2 ^ k) hwsp stack
  have hdvd : 64 ∣ thread_context_top_of_stack (2 ^ k) hwsp stack :=
    Dvd.dvd.trans (pow_ge_64_dvd k h64) (top_of_stack_dvd k hwsp stack hk)
  have hret : (setup_stack (2 ^ k) hwsp m stack id tlsptr).1
      = thread_context_ptr (2 ^ k) hwsp stack := rfl
  rw [hret]
  unfold thread_context_ptr sub64 sizeof_thread_context_t
  unfold U64 at *
  omega

/-- C15 at `BFSTACK_SIZE = 2 ^ 14` and the unaligned stack address `0x1050`. -/
theorem C15_setup_stack_returns_aligned_witness :
    (setup_stack (2 ^ 14) 0 (fun _ => 0) 0x1050 42 7).1 % 64 = 0 :=
  C15_setup_stack_returns_aligned 14 0 0x1050 42 7 (fun _ => 0) (by decide) (by decide)

/-- C17: for a power-of-two `BFSTACK_SIZE = 2 ^ k ≥ 64` and every non-zero base
`b` with `b + 2 * BFSTACK_SIZE < 2 ^ 64`, aligned or not: `b < bottom_of_stack(b)`,
`top_of_stack(b) = bottom_of_stack(b) + BFSTACK_SIZE` and
`top_of_stack(b) ≤ b + 2 * BFSTACK_SIZE`; hence the guard word
`[bottom, bottom + 8)` and the context block `[ptr, ptr + 64)`, which ends at the
top of the stack and starts at or above the bottom, lie within
`[b, b + 2 * BFSTACK_SIZE)`. -/
theorem C17_layout_fits_in_block (k hwsp b : Nat) (hk : k < 64) (h64 : 64 ≤ 2 ^ k)
    (hb0 : b ≠ 0) (hfit : b + 2 * 2 ^ k < 2 ^ 64) :
    b < thread_context_bottom_of_stack (2 ^ k) hwsp b ∧
      thread_context_top_of_stack (2 ^ k) hwsp b
        = thread_context_bottom_of_stack (2 ^ k) hwsp b + 2 ^ k ∧
      thread_context_top_of_stack (2 ^ k) hwsp b ≤ b + 2 * 2 ^ k ∧
      thread_context_bottom_of_stack (2 ^ k) hwsp b + 8 ≤ b + 2 * 2 ^ k ∧
      b < thread_context_ptr (2 ^ k) hwsp b ∧
      thread_context_bottom_of_stack (2 ^ k) hwsp b ≤ thread_context_ptr (2 ^ k) hwsp b ∧
      thread_context_ptr (2 ^ k) hwsp b + 64 = thread_context_top_of_stack (2 ^ k) hwsp b ∧
      thread_context_ptr (2 ^ k) hwsp b + 64 ≤ b + 2 * 2 ^ k := by
  have hf := floor_bounds (2 ^ k) b (Nat.two_pow_pos k)
  have htop := top_of_stack_fits k hwsp b hk hb0 hfit
  unfold thread_context_ptr thread_context_bottom_of_stack sub64 sizeof_thread_context_t
  rw [htop]
  unfold U64
  generalize 2 ^ k * (b / 2 ^ k) = f at *
  omega

/-- C17 on the layout of the diagram, `BFSTACK_SIZE = 2 ^ 14` and `b = 0x1050`:
bottom `0x4000`, starting stack pointer `0x7FC0`, top `0x8000`. -/
theorem C17_layout_fits_in_block_witness :
    (0x1050 < thread_context_bottom_of_stack (2 ^ 14) 0 0x1050 ∧
      thread_context_top_of_stack (2 ^ 14) 0 0x1050
        = thread_context_bottom_of_stack (2 ^ 14) 0 0x1050 + 2 ^ 14 ∧
      thread_context_top_of_stack (2 ^ 14) 0 0x1050 ≤ 0x1050 + 2 * 2 ^ 14 ∧
      thread_context_bottom_of_stack (2 ^ 14) 0 0x1050 + 8 ≤ 0x1050 + 2 * 2 ^ 14 ∧
      0x1050 < thread_context_ptr (2 ^ 14) 0 0x1050 ∧
      thread_context_bottom_of_stack (2 ^ 14) 0 0x1050 ≤ thread_context_ptr (2 ^ 14) 0 0x1050 ∧
      thread_context_ptr (2 ^ 14) 0 0x1050 + 64 = thread_context_top_of_stack (2 ^ 14) 0 0x1050 ∧
      thread_context_ptr (2 ^ 14) 0 0x1050 + 64 ≤ 0x1050 + 2 * 2 ^ 14) ∧
    thread_context_bottom_of_stack 0x4000 0 0x1050 = 0x4000 ∧
    (setup_stack 0x4000 0 (fun _ => 0) 0x1050 42 7).1 = 0x7FC0 ∧
    thread_context_top_of_stack 0x4000 0 0x1050 = 0x8000 :=
  ⟨C17_layout_fits_in_block 14 0 0x1050 (by decide) (by decide) (by decide) (by decide),
    by decide, by decide, by decide⟩

/-- C18: for a power-of-two `BFSTACK_SIZE = 2 ^ k`, every non-zero base `b` with
`b + 2 * BFSTACK_SIZE < 2 ^ 64` and every hardware stack pointer `h` with
`bottom_of_stack(b) ≤ h < top_of_stack(b)`, `thread_context_ptr(0)` evaluated at
`h` equals `thread_context_ptr(b)`; so after `setup_stack(b, id, tls)` (id and
TLS pointer being `uint64_t`), `thread_context_id()` is `id` and
`thread_context_tlsptr()` is `tls` from any such `h`. -/
theorem C18_loader_and_thread_agree (k hloader b id tlsptr h : Nat) (m : Mem) (hk : k < 64)
    (hb0 : b ≠ 0) (hfit : b + 2 * 2 ^ k < 2 ^ 64) (hid : id < 2 ^ 64) (htls : tlsptr < 2 ^ 64)
    (hlo : thread_context_bottom_of_stack (2 ^ k) hloader b ≤ h)
    (hhi : h < thread_context_top_of_stack (2 ^ k) hloader b) :
    thread_context_ptr (2 ^ k) h 0 = thread_context_ptr (2 ^ k) hloader b ∧
      thread_context_id (2 ^ k) h (setup_stack (2 ^ k) hloader m b id tlsptr).2 = id ∧
      thread_context_tlsptr (2 ^ k) h (setup_stack (2 ^ k) hloader m b id tlsptr).2
        = tlsptr := by
  have hlt := pow_lt_U64 k hk
  have hf := floor_bounds (2 ^ k) b (Nat.two_pow_pos k)
  have htopb := top_of_stack_fits k hloader b hk hb0 hfit
  have hbot : thread_context_bottom_of_stack (2 ^ k) hloader b
      = 2 ^ k * (b / 2 ^ k) + 2 ^ k := by
    unfold thread_context_bottom_of_stack sub64
    rw [htopb]
    unfold U64 at *
    omega
  rw [hbot] at hlo
  rw [htopb] at hhi
  have hdvd : 2 ^ k ∣ 2 ^ k * (b / 2 ^ k) + 2 ^ k :=
    Dvd.dvd.add (Dvd.intro _ rfl) (dvd_refl _)
  have hflh : 2 ^ k * (h / 2 ^ k) = 2 ^ k * (b / 2 ^ k) + 2 ^ k :=
    floor_unique (2 ^ k) _ h hdvd hlo (by omega)
  have htop : thread_context_top_of_stack (2 ^ k) h 0
      = thread_context_top_of_stack (2 ^ k) hloader b := by
    rw [top_of_stack_zero k h hk, htopb, hflh]
    unfold U64
    omega
  obtain ⟨h1, h2, h3⟩ := identity_of_same_top k hloader b id tlsptr h m hk htop
  refine ⟨h1, ?_, ?_⟩
  · rw [h2]
    exact Nat.mod_eq_of_lt hid
  · rw [h3]
    exact Nat.mod_eq_of_lt htls

/-- C18 at `BFSTACK_SIZE = 2 ^ 14`, the unaligned base `0x1050` and a thread
stack pointer `0x7F00` between bottom `0x4000` and top `0x8000`. -/
theorem C18_loader_and_thread_agree_witness :
    thread_context_ptr (2 ^ 14) 0x7F00 0 = thread_context_ptr (2 ^ 14) 0x20000 0x1050 ∧
      thread_context_id (2 ^ 14) 0x7F00
        (setup_stack (2 ^ 14) 0x20000 (fun _ => 0) 0x1050 42 7).2 = 42 ∧
      thread_context_tlsptr (2 ^ 14) 0x7F00
        (setup_stack (2 ^ 14) 0x20000 (fun _ => 0) 0x1050 42 7).2 = 7 :=
  C18_loader_and_thread_agree 14 0x20000 0x1050 42 7 0x7F00 (fun _ => 0) (by decide)
    (by decide) (by decide) (by decide) (by decide) (by decide) (by decide)

/-! ## Where `setup_stack` writes: claims C16 and C19 -/

/-- C16, evaluated on the code at the layout of the diagram (`BFSTACK_SIZE =
0x4000`, stack allocated at `0x1050`): the top of the stack is `0x8000` and
`setup_stack` returns `0x7FC0`, as drawn, but the id is stored at
`0x7FC0 + 16 = 0x7FD0` and the TLS pointer at `0x7FC0 + 8 = 0x7FC8`; the words at
`0x7FF8` and `0x7FF0`, where the diagram draws them, keep their previous
content. With a zeroed memory, id 42 and TLS pointer 7, the word at `0x7FF8` is
0 and not 42, the word at `0x7FF0` is 0 and not 7. -/
theorem C16_id_and_tls_are_not_where_drawn (hwsp id tlsptr : Nat) (m : Mem) :
    (thread_context_top_of_stack 0x4000 hwsp 0x1050 = 0x8000 ∧
      (setup_stack 0x4000 hwsp m 0x1050 id tlsptr).1 = 0x7FC0) ∧
    (read64 (setup_stack 0x4000 hwsp m 0x1050 id tlsptr).2 0x7FD0 = id % 2 ^ 64 ∧
      read64 (setup_stack 0x4000 hwsp m 0x1050 id tlsptr).2 0x7FC8 = tlsptr % 2 ^ 64) ∧
    (read64 (setup_stack 0x4000 hwsp m 0x1050 id tlsptr).2 0x7FF8 = read64 m 0x7FF8 ∧
      read64 (setup_stack 0x4000 hwsp m 0x1050 id tlsptr).2 0x7FF0 = read64 m 0x7FF0) ∧
    (read64 (setup_stack 0x4000 0 (fun _ => 0) 0x1050 42 7).2 0x7FF8 ≠ 42 ∧
      read64 (setup_stack 0x4000 0 (fun _ => 0) 0x1050 42 7).2 0x7FF0 ≠ 7) := by
  have htop : thread_context_top_of_stack 0x4000 hwsp 0x1050 = 0x8000 := by
    rw [top_of_stack_indep 0x4000 hwsp 0 0x1050 (by decide)]
    decide
  have hptr : thread_context_ptr 0x4000 hwsp 0x1050 = 0x7FC0 := by
    unfold thread_context_ptr
    rw [htop]
    decide
  have hbot : thread_context_bottom_of_stack 0x4000 hwsp 0x1050 = 0x4000 := by
    unfold thread_context_bottom_of_stack
    rw [htop]
    decide
  have hmem : (setup_stack 0x4000 hwsp m 0x1050 id tlsptr).2
      = write64 (write64 (write64 (write64 m 0x7FD0 id) 0x7FC8 tlsptr) 0x7FC0 BFCANARY)
          0x4000 BFCANARY := by
    unfold setup_stack
    simp only [hptr, hbot]
    rfl
  refine ⟨⟨htop, hptr⟩, ⟨?_, ?_⟩, ⟨?_, ?_⟩, ?_⟩
  · rw [hmem, read64_write64_far _ _ _ _ (by decide) (by decide),
      read64_write64_far _ _ _ _ (by decide) (by decide),
      read64_write64_far _ _ _ _ (by decide) (by decide), read64_write64_same]
    rfl
  · rw [hmem, read64_write64_far _ _ _ _ (by decide) (by decide),
      read64_write64_far _ _ _ _ (by decide) (by decide), read64_write64_same]
    rfl
  · rw [hmem, read64_write64_far _ _ _ _ (by decide) (by decide),
      read64_write64_far _ _ _ _ (by decide) (by decide),
      read64_write64_far _ _ _ _ (by decide) (by decide),
      read64_write64_far _ _ _ _ (by decide) (by decide)]
  · rw [hmem, read64_write64_far _ _ _ _ (by decide) (by decide),
      read64_write64_far _ _ _ _ (by decide) (by decide),
      read64_write64_far _ _ _ _ (by decide) (by decide),
      read64_write64_far _ _ _ _ (by decide) (by decide)]
  · decide

/-- C19: `setup_stack(b, id, tls)` changes memory only in four 8-byte words: an
address `x` that is none of the eight byte addresses of the word at
`thread_context_ptr(b)` (canary), at `thread_context_ptr(b) + 8` (TLS pointer),
at `thread_context_ptr(b) + 16` (id) or at `thread_context_bottom_of_stack(b)`
(guard word) keeps its content, for every `BFSTACK_SIZE`. For a power-of-two
`BFSTACK_SIZE ≥ 64` (the context block fits below the top of the stack) the 40
reserved bytes `thread_context_ptr(b) + 24 + j`, `j < 40`, are among them, and so
is every byte of the stack between the guard word and the context block. -/
theorem C19_setup_stack_frame (S hwsp b id tlsptr : Nat) (m : Mem) :
    (∀ x,
      (∀ i, i < 8 → x ≠ add64 (thread_context_ptr S hwsp b) i) →
      (∀ i, i < 8 → x ≠ add64 (add64 (thread_context_ptr S hwsp b) 8) i) →
      (∀ i, i < 8 → x ≠ add64 (add64 (thread_context_ptr S hwsp b) 16) i) →
      (∀ i, i < 8 → x ≠ add64 (thread_context_bottom_of_stack S hwsp b) i) →
      (setup_stack S hwsp m b id tlsptr).2 x = m x) ∧
    (∀ k, k < 64 → S = 2 ^ k → 64 ≤ S → ∀ j, j < 40 →
      (setup_stack S hwsp m b id tlsptr).2 (add64 (thread_context_ptr S hwsp b) (24 + j))
        = m (add64 (thread_context_ptr S hwsp b) (24 + j))) ∧
    (∀ k, k < 64 → S = 2 ^ k → 64 ≤ S → ∀ x,
      thread_context_bottom_of_stack S hwsp b + 8 ≤ x → x < thread_context_ptr S hwsp b →
      (setup_stack S hwsp m b id tlsptr).2 x = m x) := by
  have hp0 : add64 (thread_context_ptr S hwsp b) offset_canary = thread_context_ptr S hwsp b := by
    unfold offset_canary
    exact add64_zero_of_lt _ (sub64_lt _ _)
  have frame : ∀ x,
      (∀ i, i < 8 → x ≠ add64 (thread_context_ptr S hwsp b) i) →
      (∀ i, i < 8 → x ≠ add64 (add64 (thread_context_ptr S hwsp b) 8) i) →
      (∀ i, i < 8 → x ≠ add64 (add64 (thread_context_ptr S hwsp b) 16) i) →
      (∀ i, i < 8 → x ≠ add64 (thread_context_bottom_of_stack S hwsp b) i) →
      (setup_stack S hwsp m b id tlsptr).2 x = m x := by
    intro x h0 h8 h16 hb
    unfold setup_stack
    simp only [hp0]
    rw [write64_frame _ _ _ _ hb, write64_frame _ _ _ _ h0]
    unfold offset_tlsptr offset_id
    rw [write64_frame _ _ _ _ h8, write64_frame _ _ _ _ h16]
  refine ⟨frame, ?_, ?_⟩
  · intro k hk hS h64 j hj
    have hcases := pow_cases k hk
    rw [← hS] at hcases
    have hT := top_of_stack_lt S hwsp b
    apply frame
    all_goals
      intro i hi
      simp only [thread_context_ptr, thread_context_bottom_of_stack]
      generalize thread_context_top_of_stack S hwsp b = T at *
      simp only [sub64, add64, sizeof_thread_context_t, U64] at *
      omega
  · intro k hk hS h64 x hlo hhi
    have hcases := pow_cases k hk
    rw [← hS] at hcases
    have hT := top_of_stack_lt S hwsp b
    apply frame
    all_goals
      intro i hi
      simp only [thread_context_ptr, thread_context_bottom_of_stack] at *
      generalize thread_context_top_of_stack S hwsp b = T at *
      simp only [sub64, add64, sizeof_thread_context_t, U64] at *
      omega

/-- C19 at `BFSTACK_SIZE = 2 ^ 14`, stack `0x1050`: the first reserved byte
`0x7FC0 + 24` of the context block is left as it was. -/
theorem C19_setup_stack_frame_witness :
    (setup_stack (2 ^ 14) 0 (fun _ => 0xAB) 0x1050 42 7).2
        (add64 (thread_context_ptr (2 ^ 14) 0 0x1050) (24 + 0))
      = (fun _ => 0xAB) (add64 (thread_context_ptr (2 ^ 14) 0 0x1050) (24 + 0)) :=
  (C19_setup_stack_frame (2 ^ 14) 0 0x1050 42 7 (fun _ => 0xAB)).2.1 14 (by decide) rfl
    (by decide) 0 (by decide)

end Bareflank
